import Mathlib

/-!
# Verification development for `src/server.js`

`src/server.js` is an Express application with a handful of stateless JSON
handlers: a date-time group backed by `moment-timezone` and a calculator group
backed by the native Number operators.

The embedding has five layers.

* `JsNum` : ECMAScript Number values, i.e. IEEE-754 binary64 with
  round-to-nearest, ties-to-even.  The operators the handlers use (`+`, `-`,
  `*`, `/`, `Math.sqrt`, `===`, `<`, `Number.prototype.toFixed`) are defined on
  it with integer arithmetic only, so every definition evaluates.
* `JsVal` : parsed JSON values as `express.json()` hands them to a handler,
  with `typeof v === 'number'` and the truthiness test `!v`.
* `Response` : the status and the value a handler passes to
  `res.status(..).json(..)`.  Turning that value into text is Express's work
  and is not modelled.
* `MomentLib` : the calls into `moment-timezone`, whose code and zone database
  are outside the repository, as a parameter of the date-time handlers.  The
  zone lookup and the name list are computed from the loaded data the way the
  library computes them (`getZone`, `getNames`), the lookups that throw
  included; reading and rendering of texts are functions of the parameter, and
  `ClockLib` opens them up as far as the offsets of the zones go.
* one definition per route handler, following the source statement by
  statement.
-/

set_option maxRecDepth 8000
set_option exponentiation.threshold 4000

namespace ApiTest

/-! ## ECMAScript Number values -/

/-- An ECMAScript Number.  `fin neg m e` denotes `(-1)^neg * m * 2^e`. -/
inductive JsNum where
  | nan
  | inf (neg : Bool)
  | fin (neg : Bool) (m : Nat) (e : Int)
  deriving DecidableEq, Repr

namespace JsNum

/-- The values of the type that are binary64 encodings: a 53-bit significand,
an exponent in range, and a normalised significand unless the exponent is
minimal (subnormals and zeros). -/
def canonical : JsNum → Bool
  | nan => true
  | inf _ => true
  | fin _ m e => decide (m < 2 ^ 53) && decide (-1074 ≤ e) && decide (e ≤ 971) &&
      (decide (2 ^ 52 ≤ m) || decide (e = -1074))

/-- Number.isFinite on a Number. -/
def isFinite : JsNum → Bool
  | fin _ _ _ => true
  | _ => false

/-- The test `x === 0`: true for `+0` and `-0`, false for everything else. -/
def isZero : JsNum → Bool
  | fin _ m _ => decide (m = 0)
  | _ => false

/-- The test `x < 0`: false for `NaN`, `-0` and `+0`. -/
def ltZero : JsNum → Bool
  | nan => false
  | inf neg => neg
  | fin neg m _ => neg && decide (m ≠ 0)

/-- The test `x >= 0`: false for `NaN`, true for both zeros. -/
def geZero : JsNum → Bool
  | nan => false
  | inf neg => !neg
  | fin neg m _ => !neg || decide (m = 0)

/-- Position of the highest set bit, in at most `fuel` steps; a step drops 64
bits at once while more than 64 remain and one bit otherwise. -/
def log2Aux : Nat → Nat → Nat
  | 0, _ => 0
  | fuel + 1, n =>
    if n < 2 then 0
    else if n < 2 ^ 64 then log2Aux fuel (n / 2) + 1
    else log2Aux fuel (n / 2 ^ 64) + 64

/-- Floor of the binary logarithm (`0` for `0`). -/
def log2 (n : Nat) : Nat := log2Aux n n

/-- Numerator and denominator of the fraction `p / q * 2 ^ s`. -/
def scaled (p q : Nat) (s : Int) : Nat × Nat :=
  match s with
  | Int.ofNat k => (p * 2 ^ k, q)
  | Int.negSucc k => (p, q * 2 ^ (k + 1))

/-- Round the positive rational `p / q * 2 ^ ex` (with sign `neg`) to the nearest
binary64 value, ties to even; `p = 0` gives the zero of that sign.  Overflow
gives the infinity of that sign, underflow goes through the subnormals. -/
def round (neg : Bool) (p q : Nat) (ex : Int) : JsNum :=
  if p = 0 then fin neg 0 (-1074) else
  let s0 : Int := 53 - ((log2 p : Int) - (log2 q : Int))
  let nd0 := scaled p q s0
  let s1 : Int := if 2 ^ 53 ≤ nd0.1 / nd0.2 then s0 - 1 else s0
  let s : Int := min s1 (ex + 1074)
  let nd := scaled p q s
  let m := nd.1 / nd.2
  let r := nd.1 % nd.2
  let m1 := if nd.2 < 2 * r ∨ (2 * r = nd.2 ∧ m % 2 = 1) then m + 1 else m
  let e : Int := ex - s
  let m2 := if m1 = 2 ^ 53 then 2 ^ 52 else m1
  let e2 : Int := if m1 = 2 ^ 53 then e + 1 else e
  if 971 < e2 then inf neg else fin neg m2 e2

/-- The Number nearest to the decimal literal `d * 10 ^ e10` (what `JSON.parse`
yields for a number token with digits `d` and decimal exponent `e10`). -/
def ofDecimal (neg : Bool) (d : Nat) (e10 : Int) : JsNum :=
  match e10 with
  | Int.ofNat k => round neg (d * 10 ^ k) 1 0
  | Int.negSucc k => round neg d (10 ^ (k + 1)) 0

/-- The Number for a natural number literal. -/
def ofNat (n : Nat) : JsNum := round false n 1 0

/-- Unary minus. -/
def neg : JsNum → JsNum
  | nan => nan
  | inf s => inf (!s)
  | fin s m e => fin (!s) m e

/-- The signed integer `(-1)^neg * m * 2^(e - e0)` for `e0 ≤ e`. -/
def aligned (s : Bool) (m : Nat) (e e0 : Int) : Int :=
  let v : Int := ((m * 2 ^ (e - e0).toNat : Nat) : Int)
  if s then -v else v

/-- Number::add, the `+` operator on two Numbers. -/
def add : JsNum → JsNum → JsNum
  | nan, _ => nan
  | _, nan => nan
  | inf s, inf t => if s = t then inf s else nan
  | inf s, fin _ _ _ => inf s
  | fin _ _ _, inf t => inf t
  | fin s m e, fin t n f =>
    let e0 := min e f
    let v := aligned s m e e0 + aligned t n f e0
    if v = 0 then fin (s && t) 0 (-1074) else round (decide (v < 0)) v.natAbs 1 e0

/-- Number::subtract, the `-` operator: `x - y` is `x + (-y)`. -/
def sub (x y : JsNum) : JsNum := add x (neg y)

/-- Number::multiply, the `*` operator. -/
def mul : JsNum → JsNum → JsNum
  | nan, _ => nan
  | _, nan => nan
  | inf s, inf t => inf (xor s t)
  | inf s, fin t n _ => if n = 0 then nan else inf (xor s t)
  | fin s m _, inf t => if m = 0 then nan else inf (xor s t)
  | fin s m e, fin t n f => round (xor s t) (m * n) 1 (e + f)

/-- Number::divide, the `/` operator. -/
def div : JsNum → JsNum → JsNum
  | nan, _ => nan
  | _, nan => nan
  | inf _, inf _ => nan
  | inf s, fin t _ _ => inf (xor s t)
  | fin s _ _, inf t => fin (xor s t) 0 (-1074)
  | fin s m e, fin t n f =>
    if n = 0 then (if m = 0 then nan else inf (xor s t))
    else round (xor s t) m n (e - f)

/-- Bitwise integer square root: the largest `r` below `2 ^ i` above the bits
already fixed in `r` with `r * r ≤ n`. -/
def isqrtAux (n : Nat) : Nat → Nat → Nat
  | 0, r => r
  | i + 1, r => isqrtAux n i (if (r + 2 ^ i) * (r + 2 ^ i) ≤ n then r + 2 ^ i else r)

/-- Floor of the square root of a natural number. -/
def isqrt (n : Nat) : Nat := isqrtAux n (log2 n / 2 + 1) 0

/-- The function `Math.sqrt`, as the correctly rounded IEEE-754 squareRoot (what
V8 computes): the significand is scaled to at least 110 bits with an even
exponent, its integer square root taken, and a sticky bit appended before
rounding. -/
def sqrt : JsNum → JsNum
  | nan => nan
  | inf s => if s then nan else inf false
  | fin s m e =>
    if m = 0 then fin s 0 e
    else if s then nan
    else
      let k : Nat := 110 + (e % 2).toNat
      let big := m * 2 ^ k
      let r := isqrt big
      let sticky := if r * r = big then 0 else 1
      round false (2 * r + sticky) 1 ((e - k) / 2 - 1)

/-- The rational a finite Number denotes (`0` for `NaN` and the infinities,
which denote none). -/
def toRat : JsNum → ℚ
  | fin s m e => (if s then -1 else 1) * (m : ℚ) * (2 : ℚ) ^ e
  | _ => 0

/-! ### Number to text: `Number.prototype.toFixed(2)` and `Number::toString` -/

/-- The character of a decimal digit. -/
def digitChar (d : Nat) : Char := Char.ofNat (48 + d)

/-- Decimal digits of `n`, most significant first, with `fuel` bounding the
number of digits produced. -/
def decDigitsAux : Nat → Nat → List Char
  | 0, _ => []
  | fuel + 1, n =>
    if n < 10 then [digitChar n] else decDigitsAux fuel (n / 10) ++ [digitChar (n % 10)]

/-- The decimal representation of `n` with no leading zeros ("0" for zero). -/
def decDigits (n : Nat) : List Char := decDigitsAux (n + 1) n

/-- The test `m * 2 ^ e ≥ 10 ^ 21`. -/
def geTenPow21 (m : Nat) (e : Int) : Bool :=
  match e with
  | Int.ofNat k => decide (10 ^ 21 ≤ m * 2 ^ k)
  | Int.negSucc k => decide (10 ^ 21 * 2 ^ (k + 1) ≤ m)

/-- The integer `n` for which `n / 100 - m * 2 ^ e` is as close to zero as
possible, the larger one when there are two (step 11.a of `toFixed`). -/
def hundredths (m : Nat) (e : Int) : Nat :=
  match e with
  | Int.ofNat k => m * 2 ^ k * 100
  | Int.negSucc k => (m * 200 + 2 ^ (k + 1)) / 2 ^ (k + 2)

/-- Drop the trailing zeros of a digit list. -/
def stripZeros (ds : List Char) : List Char :=
  (ds.reverse.dropWhile (fun c => c == '0')).reverse

/-- Search for the shortest decimal that reads back as `x`: for `k = 1, 2, ..`
significant digits, the two `k`-digit decimals around the integer `big` are
tried; when both read back as `x` the closer one is taken (the even one on a
tie). -/
def shortestAux (x : JsNum) (big nd : Nat) : Nat → Nat → Nat
  | 0, _ => big
  | fuel + 1, k =>
    let scale := 10 ^ (nd - k)
    let lo := big / scale * scale
    let hi := lo + scale
    let okLo := decide (ofNat lo = x)
    let okHi := decide (ofNat hi = x)
    if okLo && okHi then
      (if big - lo < hi - big then lo
       else if hi - big < big - lo then hi
       else if big / scale % 2 = 0 then lo else hi)
    else if okLo then lo
    else if okHi then hi
    else shortestAux x big nd fuel (k + 1)

/-- Number::toString for a positive integral Number `m * 2 ^ k` that is at
least `10 ^ 21`: the shortest digits that read back as the same Number, in
exponential form `d.ddde+NN`. -/
def toStringLarge (m k : Nat) : List Char :=
  let big := m * 2 ^ k
  let nd := (decDigits big).length
  let c := shortestAux (ofNat big) big nd nd 1
  let all := decDigits c
  let s := stripZeros all
  let ex := decDigits (all.length - 1)
  match s with
  | [] => all
  | d :: [] => d :: 'e' :: '+' :: ex
  | d :: rest => d :: '.' :: (rest ++ 'e' :: '+' :: ex)

/-- The text of `x.toFixed(2)`, following the steps of
`Number.prototype.toFixed` with `fractionDigits = 2`.  A binary64 value that is
at least `10 ^ 21` has a non-negative exponent, which is what the first branch
passes on. -/
def toFixed2 : JsNum → List Char
  | nan => ['N', 'a', 'N']
  | inf s => if s then "-Infinity".toList else "Infinity".toList
  | fin s m e =>
    let sign : List Char := if s && decide (m ≠ 0) then ['-'] else []
    if geTenPow21 m e then sign ++ toStringLarge m e.toNat
    else
      let ds := decDigits (hundredths m e)
      let padded := if ds.length ≤ 2 then List.replicate (3 - ds.length) '0' ++ ds else ds
      sign ++ (padded.take (padded.length - 2) ++ '.' :: padded.drop (padded.length - 2))

end JsNum

/-! ## JSON values and responses -/

/-- A JavaScript value as it occurs in a parsed JSON body or in the object a
handler passes to `res.json`; `undefined` is what reading an absent property
gives. -/
inductive JsVal where
  | undefined
  | null
  | bool (b : Bool)
  | num (n : JsNum)
  | str (s : String)
  | arr (items : List JsVal)
  | obj (members : List (String × JsVal))

namespace JsVal

/-- The test `typeof v === 'number'`. -/
def isNumber : JsVal → Bool
  | num _ => true
  | _ => false

/-- ToBoolean: the values for which `!v` is false.  The falsy values are
`undefined`, `null`, `false`, `+0`, `-0`, `NaN` and the empty string. -/
def truthy : JsVal → Bool
  | undefined => false
  | null => false
  | bool b => b
  | num n => !(n.isZero || decide (n = JsNum.nan))
  | str s => decide (s ≠ "")
  | arr _ => true
  | obj _ => true

end JsVal

/-- The parsed body of a request, `req.body`: the members of the JSON object in
the order they were written. -/
abbrev Body := List (String × JsVal)

/-- Reading property `key` of the body, as the destructuring
`const { key } = req.body` does: the value of the last member of that name
(`JSON.parse` lets a later duplicate override an earlier one), `undefined` when
there is none. -/
def Body.get (body : Body) (key : String) : JsVal :=
  (body.reverse.lookup key).getD JsVal.undefined

/-- What a handler sends: the status set by `res.status(..)` (200 when the
handler calls `res.json` directly) and the value given to `res.json`. -/
structure Response where
  status : Nat
  body : JsVal

/-- The response `res.status(400).json({ error: msg })`. -/
def badRequest (msg : String) : Response :=
  ⟨400, JsVal.obj [("error", JsVal.str msg)]⟩

/-- The response `res.json(members)`. -/
def ok (members : List (String × JsVal)) : Response :=
  ⟨200, JsVal.obj members⟩

/-- Reading property `key` of a value a handler built (`undefined` when it has
none or the value is not an object). -/
def JsVal.field (v : JsVal) (key : String) : JsVal :=
  match v with
  | JsVal.obj members => (members.lookup key).getD JsVal.undefined
  | _ => JsVal.undefined

/-- Reading a field of a response envelope. -/
def Response.field (r : Response) (key : String) : JsVal :=
  r.body.field key

/-- Whether a response envelope has a field of the given name. -/
def Response.hasField (r : Response) (key : String) : Bool :=
  match r.body with
  | JsVal.obj members => members.any (fun kv => kv.1 == key)
  | _ => false

/-! ## Calculator handlers -/

/-- Handler of `POST /api/calculate/add`. -/
def addHandler (body : Body) : Response :=
  match body.get "a", body.get "b" with
  | JsVal.num a, JsVal.num b =>
    ok [("operation", JsVal.str "addition"), ("a", JsVal.num a), ("b", JsVal.num b),
        ("result", JsVal.num (JsNum.add a b))]
  | _, _ => badRequest "Both a and b must be numbers"

/-- Handler of `POST /api/calculate/subtract`. -/
def subtractHandler (body : Body) : Response :=
  match body.get "a", body.get "b" with
  | JsVal.num a, JsVal.num b =>
    ok [("operation", JsVal.str "subtraction"), ("a", JsVal.num a), ("b", JsVal.num b),
        ("result", JsVal.num (JsNum.sub a b))]
  | _, _ => badRequest "Both a and b must be numbers"

/-- Handler of `POST /api/calculate/multiply`. -/
def multiplyHandler (body : Body) : Response :=
  match body.get "a", body.get "b" with
  | JsVal.num a, JsVal.num b =>
    ok [("operation", JsVal.str "multiplication"), ("a", JsVal.num a), ("b", JsVal.num b),
        ("result", JsVal.num (JsNum.mul a b))]
  | _, _ => badRequest "Both a and b must be numbers"

/-- Handler of `POST /api/calculate/divide`. -/
def divideHandler (body : Body) : Response :=
  match body.get "a", body.get "b" with
  | JsVal.num a, JsVal.num b =>
    if b.isZero then badRequest "Cannot divide by zero"
    else
      ok [("operation", JsVal.str "division"), ("a", JsVal.num a), ("b", JsVal.num b),
          ("result", JsVal.num (JsNum.div a b))]
  | _, _ => badRequest "Both a and b must be numbers"

/-- Handler of `POST /api/calculate/power`.  `Math.pow` is left to the platform
(ECMAScript only asks for an approximation), so it is a parameter. -/
def powerHandler (pow : JsNum → JsNum → JsNum) (body : Body) : Response :=
  match body.get "a", body.get "b" with
  | JsVal.num a, JsVal.num b =>
    ok [("operation", JsVal.str "power"), ("a", JsVal.num a), ("b", JsVal.num b),
        ("result", JsVal.num (pow a b))]
  | _, _ => badRequest "Both a and b must be numbers"

/-- Handler of `POST /api/calculate/sqrt`. -/
def sqrtHandler (body : Body) : Response :=
  match body.get "number" with
  | JsVal.num number =>
    if number.ltZero then badRequest "Cannot calculate square root of negative number"
    else
      ok [("operation", JsVal.str "square root"), ("number", JsVal.num number),
          ("result", JsVal.num (JsNum.sqrt number))]
  | _ => badRequest "Number must be provided"

/-- Handler of `POST /api/calculate/percentage`. -/
def percentageHandler (body : Body) : Response :=
  match body.get "value", body.get "total" with
  | JsVal.num value, JsVal.num total =>
    if total.isZero then badRequest "Total cannot be zero"
    else
      ok [("operation", JsVal.str "percentage"), ("value", JsVal.num value),
          ("total", JsVal.num total),
          ("result", JsVal.num (JsNum.mul (JsNum.div value total) (JsNum.ofNat 100))),
          ("formatted", JsVal.str (String.mk
            (JsNum.toFixed2 (JsNum.mul (JsNum.div value total) (JsNum.ofNat 100)) ++ ['%'])))]
  | _, _ => badRequest "Both value and total must be numbers"

/-- The seven calculator routes. -/
inductive CalcOp where
  | add | subtract | multiply | divide | power | sqrt | percentage
  deriving DecidableEq, Repr

/-- The body fields a calculator handler destructures. -/
def CalcOp.operands : CalcOp → List String
  | .sqrt => ["number"]
  | .percentage => ["value", "total"]
  | _ => ["a", "b"]

/-- The message a calculator handler sends when an operand fails the
`typeof .. !== 'number'` test. -/
def CalcOp.invalidMessage : CalcOp → String
  | .sqrt => "Number must be provided"
  | .percentage => "Both value and total must be numbers"
  | _ => "Both a and b must be numbers"

/-- The handler registered for each calculator route. -/
def CalcOp.run (pow : JsNum → JsNum → JsNum) : CalcOp → Body → Response
  | .add => addHandler
  | .subtract => subtractHandler
  | .multiply => multiplyHandler
  | .divide => divideHandler
  | .power => powerHandler pow
  | .sqrt => sqrtHandler
  | .percentage => percentageHandler

/-! ## Date-time handlers -/

/-- A moment-timezone object: an instant in milliseconds since the epoch
(`none` for moment's invalid date) and the zone it is displayed in. -/
structure Moment where
  instant : Option Int
  zone : String

/-- The names every JavaScript object inherits from `Object.prototype`.
moment-timezone keeps its zones, links and names in plain objects and reads
them with `zones[key]` and `links[key]`; on one of these keys such a read gives
the inherited member (a function, or the prototype object) where the table has
no entry of its own. -/
def objectPrototypeKeys : List String :=
  ["constructor", "__proto__", "hasOwnProperty", "isPrototypeOf", "propertyIsEnumerable",
   "toLocaleString", "toString", "valueOf", "__defineGetter__", "__defineSetter__",
   "__lookupGetter__", "__lookupSetter__"]

/-- The function `normalizeName` of moment-timezone on a string: the name in
lower case with every `/` replaced by `_`.  `lower` is
`String.prototype.toLowerCase`. -/
def normalizeName (lower : String → String) (name : String) : String :=
  String.mk ((lower name).data.map fun c => if c = '/' then '_' else c)

/-- The assignment `obj[key] = value` on an object held as the list of its own
properties in insertion order. -/
def assign (obj : List (String × String)) (key value : String) : List (String × String) :=
  if obj.any (fun p => p.1 == key) then
    obj.map (fun p => if p.1 == key then (key, value) else p)
  else obj ++ [(key, value)]

/-- Own keys of the `zones` table once `addZone` has been given the packed
zones named `zoneNames`: it sets `zones[normalizeName(name)]` for each. -/
def zoneKeys (lower : String → String) (zoneNames : List String) : List String :=
  zoneNames.map (normalizeName lower)

/-- The `links` table once `addLink` has been given the alias pairs
`linkPairs`: for each pair it sets `links[normal0] = normal1` and
`links[normal1] = normal0`. -/
def linkTable (lower : String → String) (linkPairs : List (String × String)) :
    List (String × String) :=
  linkPairs.foldl (fun obj p =>
    assign (assign obj (normalizeName lower p.1) (normalizeName lower p.2))
      (normalizeName lower p.2) (normalizeName lower p.1)) []

/-- The `names` table once the data is loaded: `addZone` sets
`names[normalized] = name` for each zone, then `addLink` sets
`names[normal0] = alias0` and `names[normal1] = alias1` for each pair. -/
def nameTable (lower : String → String) (zoneNames : List String)
    (linkPairs : List (String × String)) : List (String × String) :=
  linkPairs.foldl (fun obj p =>
    assign (assign obj (normalizeName lower p.1) p.1) (normalizeName lower p.2) p.2)
    (zoneNames.foldl (fun obj z => assign obj (normalizeName lower z) z) [])

/-- The call `moment.tz.zone(name)` on a string: `some true` when it returns a
zone, `some false` when it returns `null`, `none` when it throws.  The lookup
reads `zones[key]`; failing that it follows `links[key]` one step; on a key
that neither table has but every object inherits, `links[key]` is the inherited
member, and the nested call throws a `TypeError` when it asks that member for
`toLowerCase`. -/
def getZone (lower : String → String) (zoneNames : List String)
    (linkPairs : List (String × String)) (name : String) : Option Bool :=
  let key := normalizeName lower name
  if (zoneKeys lower zoneNames).contains key then some true
  else
    match (linkTable lower linkPairs).lookup key with
    | some target =>
      some (target != "" && (zoneKeys lower zoneNames).contains (normalizeName lower target))
    | none => if objectPrototypeKeys.contains key then none else some false

/-- The UTF-16 code units of a character. -/
def utf16 (c : Char) : List Nat :=
  if c.toNat < 65536 then [c.toNat]
  else [55296 + (c.toNat - 65536) / 1024, 56320 + (c.toNat - 65536) % 1024]

/-- The UTF-16 code units of a string. -/
def codeUnits (s : String) : List Nat :=
  (s.data.map utf16).flatten

/-- Lexicographic order on sequences of code units. -/
def unitsLe : List Nat → List Nat → Bool
  | [], _ => true
  | _ :: _, [] => false
  | a :: as, b :: bs => decide (a < b) || (a == b && unitsLe as bs)

/-- The order of `Array.prototype.sort` without a comparator on strings. -/
def jsLe (a b : String) : Bool :=
  unitsLe (codeUnits a) (codeUnits b)

/-- Insertion of a string into a sorted list. -/
def insertSorted (x : String) : List String → List String
  | [] => [x]
  | y :: ys => if jsLe x y then x :: y :: ys else y :: insertSorted x ys

/-- The call `out.sort()` on an array of strings. -/
def jsSort : List String → List String
  | [] => []
  | x :: xs => insertSorted x (jsSort xs)

/-- The call `moment.tz.names()`: the values of the `names` table whose key has
zone data, directly or through its link, sorted.  (`zones[key]` is truthy also
when it is an inherited member.) -/
def getNames (lower : String → String) (zoneNames : List String)
    (linkPairs : List (String × String)) : List String :=
  let truthy := fun key =>
    (zoneKeys lower zoneNames).contains key || objectPrototypeKeys.contains key
  jsSort (((nameTable lower zoneNames linkPairs).filter fun p =>
    (truthy p.1 ||
      (match (linkTable lower linkPairs).lookup p.1 with
       | some target => truthy target
       | none => false)) && p.2 != "").map Prod.snd)

/-- The part of moment-timezone the handlers call.  The library and its zone
database are not part of the repository, so they are a parameter: `zoneNames`
are the names of the packed zones of the loaded data and `linkPairs` its alias
pairs, `lower` is `String.prototype.toLowerCase`; `parse input zone` is the
instant of `moment.tz(input, zone)`; `format m none` is `m.format()` and
`format m (some p)` is `m.format(p)`; `toISOString` is the method of that name;
`localZone` is the zone of the server, in which `moment()` displays.  No zone
is named by the empty string. -/
structure MomentLib where
  zoneNames : List String
  linkPairs : List (String × String)
  lower : String → String
  localZone : String
  parse : JsVal → String → Option Int
  format : Moment → Option String → String
  toISOString : Moment → String
  zone_nonempty : getZone lower zoneNames linkPairs "" = some false

/-- The call `moment.tz.zone(name)` with the loaded data; `none` when it
throws. -/
def MomentLib.zone (L : MomentLib) (name : String) : Option Bool :=
  getZone L.lower L.zoneNames L.linkPairs name

/-- Whether `moment.tz.zone(name)` returns a zone. -/
def MomentLib.hasZone (L : MomentLib) (name : String) : Bool :=
  L.zone name == some true

/-- The call `moment.tz.names()` with the loaded data. -/
def MomentLib.names (L : MomentLib) : List String :=
  getNames L.lower L.zoneNames L.linkPairs

/-- The call `moment.tz(input, zone)`: the input read as wall-clock time in
`zone`, displayed in `zone`. -/
def MomentLib.tz (L : MomentLib) (input : JsVal) (zone : String) : Moment :=
  ⟨L.parse input zone, zone⟩

/-- The call `m.clone().tz(zone)`: the same instant displayed in `zone`. -/
def Moment.tz (m : Moment) (zone : String) : Moment :=
  ⟨m.instant, zone⟩

/-- The Number of an integer (`valueOf()` of a moment is its instant). -/
def JsNum.ofInt (i : Int) : JsNum :=
  JsNum.round (decide (i < 0)) i.natAbs 1 0

/-- Handler of `GET /api/datetime/now`; `now` is the reading of the clock that
`moment()` takes. -/
def nowHandler (L : MomentLib) (now : Int) : Response :=
  let m : Moment := ⟨some now, L.localZone⟩
  ok [("datetime", JsVal.str (L.toISOString m)),
    ("timestamp", JsVal.num (JsNum.ofInt now)),
    ("formatted", JsVal.str (L.format m (some "MMMM D, YYYY h:mm:ss A")))]

/-- Handler of `GET /api/datetime/timezone/:timezone`; the path parameter is a
string, `now` is the reading of the clock that `moment.tz(timezone)` takes.
The result is `none` when the handler throws instead of responding, which it
does when `moment.tz.zone(timezone)` throws: there is no `try` around it. -/
def timezoneHandler (L : MomentLib) (now : Int) (timezone : String) : Option Response :=
  match L.zone timezone with
  | none => none
  | some false => some (badRequest "Invalid timezone")
  | some true =>
    let m : Moment := ⟨some now, timezone⟩
    some (ok [("timezone", JsVal.str timezone),
      ("datetime", JsVal.str (L.format m none)),
      ("formatted", JsVal.str (L.format m (some "MMMM D, YYYY h:mm:ss A z"))),
      ("offset", JsVal.str (L.format m (some "Z")))])

/-- Handler of `GET /api/timezones`. -/
def timezonesHandler (L : MomentLib) : Response :=
  let timezones := L.names
  ok [("count", JsVal.num (JsNum.ofNat timezones.length)),
    ("timezones", JsVal.arr (timezones.map JsVal.str))]

/-- Handler of `POST /api/datetime/convert`.  The result is `none` when the
handler throws instead of responding: `moment.tz.zone` normalises its argument
with `toLowerCase`, which a truthy non-string value does not have, and it
throws on some strings as well (see `getZone`).  The `||` of the zone test does
not look at `toTimezone` when `fromTimezone` is unknown. -/
def convertHandler (L : MomentLib) (body : Body) : Option Response :=
  let datetime := body.get "datetime"
  let fromTimezone := body.get "fromTimezone"
  let toTimezone := body.get "toTimezone"
  if !datetime.truthy || !fromTimezone.truthy || !toTimezone.truthy then
    some (badRequest "Missing required fields")
  else
    match fromTimezone with
    | JsVal.str f =>
      match L.zone f with
      | none => none
      | some false => some (badRequest "Invalid timezone")
      | some true =>
        match toTimezone with
        | JsVal.str t =>
          match L.zone t with
          | none => none
          | some false => some (badRequest "Invalid timezone")
          | some true =>
            let original := L.tz datetime f
            let converted := original.tz t
            some (ok [
              ("original", JsVal.obj [("timezone", JsVal.str f),
                ("datetime", JsVal.str (L.format original none)),
                ("formatted", JsVal.str (L.format original (some "MMMM D, YYYY h:mm:ss A z")))]),
              ("converted", JsVal.obj [("timezone", JsVal.str t),
                ("datetime", JsVal.str (L.format converted none)),
                ("formatted",
                  JsVal.str (L.format converted (some "MMMM D, YYYY h:mm:ss A z")))])])
        | _ => none
    | _ => none

/-- Handler of `GET /`. -/
def rootHandler : Response :=
  ok [("message", JsVal.str "DateTime & Timezone API with Calculator"),
    ("documentation", JsVal.str "/api-docs")]

/-- A small stand-in for moment-timezone, used to instantiate the theorems at
concrete requests.  Its data has the zones `UTC` and `Asia/Tokyo` and the alias
`Etc/UTC` of `UTC`; it lowers the ASCII letters; it reads the one wall-clock
text `2026-01-05 10:00:00`, and renders the two instants that text denotes in
its two zones (any other instant as if it were the later one). -/
def sampleLib : MomentLib where
  zoneNames := ["UTC", "Asia/Tokyo"]
  linkPairs := [("UTC", "Etc/UTC")]
  lower := fun s => String.mk (s.data.map Char.toLower)
  localZone := "UTC"
  parse := fun input zone =>
    match input with
    | JsVal.str s =>
      if s == "2026-01-05 10:00:00" then
        (if zone == "Asia/Tokyo" then some 1767574800000 else some 1767607200000)
      else none
    | _ => none
  format := fun m pattern =>
    match m.instant with
    | none => "Invalid date"
    | some t =>
      if pattern == none then
        (if m.zone == "Asia/Tokyo" then
          (if t == 1767574800000 then "2026-01-05T10:00:00+09:00"
           else "2026-01-05T19:00:00+09:00")
         else (if t == 1767574800000 then "2026-01-05T01:00:00Z" else "2026-01-05T10:00:00Z"))
      else if pattern == some "Z" then
        (if m.zone == "Asia/Tokyo" then "+09:00" else "+00:00")
      else
        (if m.zone == "Asia/Tokyo" then
          (if t == 1767574800000 then "January 5, 2026 10:00:00 AM JST"
           else "January 5, 2026 7:00:00 PM JST")
         else
          (if t == 1767574800000 then "January 5, 2026 1:00:00 AM UTC"
           else "January 5, 2026 10:00:00 AM UTC"))
  toISOString := fun m =>
    match m.instant with
    | none => "Invalid date"
    | some t =>
      if t == 1767574800000 then "2026-01-05T01:00:00.000Z" else "2026-01-05T10:00:00.000Z"
  zone_nonempty := by decide

/-- How moment-timezone gets from a text to an instant and back, opened up as
far as the zones are concerned; all times are in milliseconds.
`readText input` is what `moment.utc(input)` reads: the wall-clock reading
(counted as if it were UTC) and the offset the text states, if it states one;
`none` when the input cannot be read.  `localOffset zone w` is the offset of
`zone` in force at the wall-clock reading `w` (what `zone.parse` finds) and
`utcOffset zone i` the one in force at the instant `i`, both east of UTC.
`showText w off zone p` renders a wall-clock reading with its offset. -/
structure ClockLib where
  base : MomentLib
  readText : JsVal → Option (Int × Option Int)
  localOffset : String → Int → Int
  utcOffset : String → Int → Int
  showText : Int → Int → String → Option String → String

/-- The library of a `ClockLib`.  `moment.tz(input, zone)` takes the reading of
`moment.utc(input)` and, unless the text stated an offset of its own, moves it
by the offset of `zone` at that reading; `format` renders the wall-clock reading
of the instant in the zone of the moment, and an invalid date as
`Invalid date`. -/
def ClockLib.lib (C : ClockLib) : MomentLib :=
  { C.base with
    parse := fun input zone =>
      match C.readText input with
      | none => none
      | some (w, some off) => some (w - off)
      | some (w, none) => some (w - C.localOffset zone w)
    format := fun m pattern =>
      match m.instant with
      | none => "Invalid date"
      | some i => C.showText (i + C.utcOffset m.zone i) (C.utcOffset m.zone i) m.zone pattern }

/-- The wall-clock reading a moment shows in its zone. -/
def ClockLib.wallClock (C : ClockLib) (m : Moment) : Option Int :=
  m.instant.map fun i => i + C.utcOffset m.zone i

/-- A stand-in `ClockLib` over the data of `sampleLib`: `Asia/Tokyo` is nine
hours east of UTC throughout; it reads the wall-clock text
`2026-01-05 10:00:00` and the two ISO texts with an offset that it writes for
10:00 UTC of that day. -/
def sampleClock : ClockLib where
  base := sampleLib
  readText := fun input =>
    match input with
    | JsVal.str s =>
      if s == "2026-01-05 10:00:00" then some (1767607200000, none)
      else if s == "2026-01-05T19:00:00+09:00" then some (1767639600000, some 32400000)
      else if s == "2026-01-05T10:00:00Z" then some (1767607200000, some 0)
      else none
    | _ => none
  localOffset := fun zone _ => if zone == "Asia/Tokyo" then 32400000 else 0
  utcOffset := fun zone _ => if zone == "Asia/Tokyo" then 32400000 else 0
  showText := fun w off _ pattern =>
    if pattern == none then
      (if w == 1767639600000 then
        (if off == 32400000 then "2026-01-05T19:00:00+09:00" else "2026-01-05T19:00:00Z")
       else if w == 1767607200000 then
        (if off == 32400000 then "2026-01-05T10:00:00+09:00" else "2026-01-05T10:00:00Z")
       else "2026-01-05T01:00:00Z")
    else
      (if w == 1767639600000 then
        (if off == 32400000 then "January 5, 2026 7:00:00 PM JST"
         else "January 5, 2026 7:00:00 PM UTC")
       else if w == 1767607200000 then
        (if off == 32400000 then "January 5, 2026 10:00:00 AM JST"
         else "January 5, 2026 10:00:00 AM UTC")
       else "January 5, 2026 1:00:00 AM UTC")

/-! ## Routes, envelopes and `Math.pow` -/

/-- The `operation` text a calculator handler puts in its success envelope. -/
def CalcOp.operationName : CalcOp → String
  | .add => "addition"
  | .subtract => "subtraction"
  | .multiply => "multiplication"
  | .divide => "division"
  | .power => "power"
  | .sqrt => "square root"
  | .percentage => "percentage"

/-- The `/api/calculate/*` routes the source registers with `app.post`, in the
order of the source, each with its handler. -/
def calculateRoutes : List (String × CalcOp) :=
  [("/api/calculate/add", CalcOp.add),
   ("/api/calculate/subtract", CalcOp.subtract),
   ("/api/calculate/multiply", CalcOp.multiply),
   ("/api/calculate/divide", CalcOp.divide),
   ("/api/calculate/power", CalcOp.power),
   ("/api/calculate/sqrt", CalcOp.sqrt),
   ("/api/calculate/percentage", CalcOp.percentage)]

/-- The error messages that occur in the source, one string literal per
`res.status(400).json({ error: .. })`. -/
def errorMessages : List String :=
  ["Invalid timezone", "Missing required fields", "Both a and b must be numbers",
   "Cannot divide by zero", "Number must be provided",
   "Cannot calculate square root of negative number",
   "Both value and total must be numbers", "Total cannot be zero"]

/-- An envelope whose only field is `error`, holding one of the messages of the
source. -/
def Response.isErrorEnvelope (r : Response) : Bool :=
  match r.body with
  | JsVal.obj [(key, JsVal.str msg)] => key == "error" && errorMessages.contains msg
  | _ => false

/-- The two kinds of response: status 400 with an error envelope, or status
200 with an envelope that has no `error` field. -/
def Response.conforms (r : Response) : Bool :=
  (r.status == 400 && r.isErrorEnvelope) || (r.status == 200 && !r.hasField "error")

/-- The natural number a Number denotes, when it is not negative (nor `-0`) and
denotes one. -/
def JsNum.asNat : JsNum → Option Nat
  | JsNum.fin s m e =>
    if s then none
    else
      match e with
      | Int.ofNat k => some (m * 2 ^ k)
      | Int.negSucc k => if m % 2 ^ (k + 1) = 0 then some (m / 2 ^ (k + 1)) else none
  | _ => none

/-- The function `Math.pow` as far as it is fixed.  Number::exponentiate gives
`NaN` for a `NaN` exponent and `1` for an exponent `+0` or `-0`; the fdlibm
routine behind V8 returns the exact integer for a natural base and exponent
whenever that integer is representable (here: below `2 ^ 53`).  Every other case
is the implementation's approximation, the parameter `approx`. -/
def JsNum.pow (approx : JsNum → JsNum → JsNum) (a b : JsNum) : JsNum :=
  if b = JsNum.nan then JsNum.nan
  else if b.isZero then JsNum.ofNat 1
  else
    match a.asNat, b.asNat with
    | some x, some y =>
      if (x ≤ 1 ∨ y ≤ 53) ∧ x ^ y < 2 ^ 53 then JsNum.ofNat (x ^ y) else approx a b
    | _, _ => approx a b

/-! ## The rounding function stays within binary64 -/

/-- The bit position found by `log2Aux` brackets the number. -/
theorem JsNum.log2Aux_spec (fuel n : Nat) (hf : n ≤ fuel) (hn : 0 < n) :
    2 ^ JsNum.log2Aux fuel n ≤ n ∧ n < 2 ^ (JsNum.log2Aux fuel n + 1) := by
  induction fuel generalizing n with
  | zero => omega
  | succ fuel ih =>
    rw [JsNum.log2Aux]
    by_cases h2 : n < 2
    · have : n = 1 := by omega
      subst this
      simp
    · simp only [h2, if_false]
      by_cases h64 : n < 2 ^ 64
      · simp only [h64, if_true]
        have hpos : 0 < n / 2 := Nat.div_pos (by omega) (by omega)
        obtain ⟨h1, h3⟩ := ih (n / 2) (by omega) hpos
        constructor
        · rw [pow_succ]; omega
        · rw [pow_succ]; omega
      · simp only [h64, if_false]
        have hpos : 0 < n / 2 ^ 64 := Nat.div_pos (by omega) (by positivity)
        have hle : n / 2 ^ 64 ≤ fuel := by
          have : n / 2 ^ 64 < n := Nat.div_lt_self hn (by norm_num)
          omega
        obtain ⟨h1, h3⟩ := ih (n / 2 ^ 64) hle hpos
        have hdm := Nat.div_add_mod n (2 ^ 64)
        have hmod : n % 2 ^ 64 < 2 ^ 64 := Nat.mod_lt _ (by positivity)
        constructor
        · rw [pow_add]
          calc 2 ^ JsNum.log2Aux fuel (n / 2 ^ 64) * 2 ^ 64
              ≤ (n / 2 ^ 64) * 2 ^ 64 := Nat.mul_le_mul_right _ h1
            _ ≤ n := Nat.div_mul_le_self n (2 ^ 64)
        · have e1 : JsNum.log2Aux fuel (n / 2 ^ 64) + 64 + 1 =
              (JsNum.log2Aux fuel (n / 2 ^ 64) + 1) + 64 := by omega
          rw [e1, pow_add]
          have h4 : n / 2 ^ 64 + 1 ≤ 2 ^ (JsNum.log2Aux fuel (n / 2 ^ 64) + 1) := h3
          calc n < (n / 2 ^ 64 + 1) * 2 ^ 64 := by
                rw [Nat.add_mul, Nat.one_mul, Nat.mul_comm]; omega
            _ ≤ 2 ^ (JsNum.log2Aux fuel (n / 2 ^ 64) + 1) * 2 ^ 64 :=
                Nat.mul_le_mul_right _ h4

/-- The binary logarithm brackets a positive number. -/
theorem JsNum.log2_spec (n : Nat) (hn : 0 < n) :
    2 ^ JsNum.log2 n ≤ n ∧ n < 2 ^ (JsNum.log2 n + 1) :=
  JsNum.log2Aux_spec n n (Nat.le_refl n) hn

/-- Lowering the scale by one halves the quotient. -/
theorem JsNum.scaled_pred (p q : Nat) (s : Int) :
    (JsNum.scaled p q (s - 1)).1 / (JsNum.scaled p q (s - 1)).2 =
      (JsNum.scaled p q s).1 / (JsNum.scaled p q s).2 / 2 := by
  cases s with
  | ofNat k =>
    cases k with
    | zero =>
      have e : Int.ofNat 0 - 1 = Int.negSucc 0 := rfl
      rw [e]
      simp only [JsNum.scaled, Nat.zero_add, pow_one, pow_zero, Nat.mul_one]
      rw [Nat.div_div_eq_div_mul]
    | succ k =>
      have e : Int.ofNat (k + 1) - 1 = Int.ofNat k := by
        simp only [Int.ofNat_eq_coe]; omega
      rw [e]
      simp only [JsNum.scaled]
      rw [Nat.div_div_eq_div_mul, pow_succ, ← Nat.mul_assoc,
        Nat.mul_div_mul_right _ _ (by norm_num : 0 < 2)]
  | negSucc k =>
    have e : Int.negSucc k - 1 = Int.negSucc (k + 1) := rfl
    rw [e]
    simp only [JsNum.scaled]
    rw [Nat.div_div_eq_div_mul, pow_succ 2 (k + 1), Nat.mul_assoc]

/-- Lowering the scale by `d` divides the quotient by `2 ^ d`. -/
theorem JsNum.scaled_sub (p q : Nat) (s : Int) (d : Nat) :
    (JsNum.scaled p q (s - d)).1 / (JsNum.scaled p q (s - d)).2 =
      (JsNum.scaled p q s).1 / (JsNum.scaled p q s).2 / 2 ^ d := by
  induction d with
  | zero => simp
  | succ d ih =>
    have e : s - ((d + 1 : Nat) : Int) = (s - (d : Int)) - 1 := by push_cast; ring
    rw [e, JsNum.scaled_pred, ih, Nat.div_div_eq_div_mul, pow_succ]

/-- A smaller scale gives a smaller quotient. -/
theorem JsNum.scaled_mono (p q : Nat) (s t : Int) (h : s ≤ t) :
    (JsNum.scaled p q s).1 / (JsNum.scaled p q s).2 ≤
      (JsNum.scaled p q t).1 / (JsNum.scaled p q t).2 := by
  have e : s = t - ((t - s).toNat : Int) := by
    rw [Int.toNat_of_nonneg (by omega)]; ring
  rw [e, JsNum.scaled_sub]
  exact Nat.div_le_self _ _

/-- At the scale chosen from the two logarithms the quotient has 53 or 54
bits. -/
theorem JsNum.scaled_first (p q : Nat) (hp : 0 < p) (hq : 0 < q) :
    2 ^ 52 ≤ (JsNum.scaled p q (53 - ((JsNum.log2 p : Int) - (JsNum.log2 q : Int)))).1 /
        (JsNum.scaled p q (53 - ((JsNum.log2 p : Int) - (JsNum.log2 q : Int)))).2 ∧
    (JsNum.scaled p q (53 - ((JsNum.log2 p : Int) - (JsNum.log2 q : Int)))).1 /
        (JsNum.scaled p q (53 - ((JsNum.log2 p : Int) - (JsNum.log2 q : Int)))).2 < 2 ^ 54 := by
  obtain ⟨hp1, hp2⟩ := JsNum.log2_spec p hp
  obtain ⟨hq1, hq2⟩ := JsNum.log2_spec q hq
  generalize JsNum.log2 p = a at hp1 hp2 ⊢
  generalize JsNum.log2 q = b at hq1 hq2 ⊢
  cases hs : (53 - ((a : Int) - (b : Int))) with
  | ofNat k =>
    have hk : a + k = 53 + b := by
      simp only [Int.ofNat_eq_coe] at hs; omega
    simp only [JsNum.scaled]
    constructor
    · rw [Nat.le_div_iff_mul_le hq]
      have h1 : 2 ^ 52 * q ≤ 2 ^ 52 * 2 ^ (b + 1) := Nat.mul_le_mul_left _ (le_of_lt hq2)
      have h2 : 2 ^ a * 2 ^ k ≤ p * 2 ^ k := Nat.mul_le_mul_right _ hp1
      have h3 : 2 ^ 52 * 2 ^ (b + 1) = 2 ^ a * 2 ^ k := by
        rw [← pow_add, ← pow_add]; congr 1; omega
      omega
    · rw [Nat.div_lt_iff_lt_mul hq]
      have h1 : p * 2 ^ k < 2 ^ (a + 1) * 2 ^ k :=
        Nat.mul_lt_mul_of_pos_right hp2 (by positivity)
      have h2 : 2 ^ 54 * 2 ^ b ≤ 2 ^ 54 * q := Nat.mul_le_mul_left _ hq1
      have h3 : 2 ^ (a + 1) * 2 ^ k = 2 ^ 54 * 2 ^ b := by
        rw [← pow_add, ← pow_add]; congr 1; omega
      omega
  | negSucc k =>
    have hk : a = 53 + b + (k + 1) := by
      have : (53 : Int) - ((a : Int) - (b : Int)) = -((k : Int) + 1) := by
        rw [hs]; exact Int.negSucc_eq k
      omega
    simp only [JsNum.scaled]
    have hden : 0 < q * 2 ^ (k + 1) := by positivity
    constructor
    · rw [Nat.le_div_iff_mul_le hden]
      have h1 : 2 ^ 52 * (q * 2 ^ (k + 1)) ≤ 2 ^ 52 * (2 ^ (b + 1) * 2 ^ (k + 1)) :=
        Nat.mul_le_mul_left _ (Nat.mul_le_mul_right _ (le_of_lt hq2))
      have h3 : 2 ^ 52 * (2 ^ (b + 1) * 2 ^ (k + 1)) = 2 ^ a := by
        rw [← pow_add, ← pow_add]; congr 1; omega
      omega
    · rw [Nat.div_lt_iff_lt_mul hden]
      have h2 : 2 ^ 54 * (2 ^ b * 2 ^ (k + 1)) ≤ 2 ^ 54 * (q * 2 ^ (k + 1)) :=
        Nat.mul_le_mul_left _ (Nat.mul_le_mul_right _ hq1)
      have h3 : 2 ^ 54 * (2 ^ b * 2 ^ (k + 1)) = 2 ^ (a + 1) := by
        rw [← pow_add, ← pow_add]; congr 1; omega
      omega

/-- The last step of rounding gives a binary64 value when the rounded
significand has at most 53 bits (or is exactly `2 ^ 53`) and is normalised
unless the exponent is minimal. -/
theorem JsNum.round_tail_canonical (neg : Bool) (m1 : Nat) (e : Int)
    (h1 : m1 ≤ 2 ^ 53) (he : -1074 ≤ e) (h2 : 2 ^ 52 ≤ m1 ∨ e = -1074) :
    (if 971 < (if m1 = 2 ^ 53 then e + 1 else e) then JsNum.inf neg
      else JsNum.fin neg (if m1 = 2 ^ 53 then 2 ^ 52 else m1)
        (if m1 = 2 ^ 53 then e + 1 else e)).canonical = true := by
  by_cases hm : m1 = 2 ^ 53
  · simp only [hm, if_true]
    by_cases h9 : 971 < e + 1
    · simp [h9, JsNum.canonical]
    · simp only [h9, if_false, JsNum.canonical, Bool.and_eq_true, Bool.or_eq_true,
        decide_eq_true_eq]
      omega
  · simp only [hm, if_false]
    by_cases h9 : 971 < e
    · simp [h9, JsNum.canonical]
    · simp only [h9, if_false, JsNum.canonical, Bool.and_eq_true, Bool.or_eq_true,
        decide_eq_true_eq]
      omega

/-- Rounding a fraction with a positive denominator gives a binary64 value. -/
theorem JsNum.round_canonical (neg : Bool) (p q : Nat) (ex : Int) (hq : 0 < q) :
    (JsNum.round neg p q ex).canonical = true := by
  by_cases hp : p = 0
  · simp [JsNum.round, hp, JsNum.canonical]
  · obtain ⟨hlo, hhi⟩ := JsNum.scaled_first p q (Nat.pos_of_ne_zero hp) hq
    simp only [JsNum.round, hp, if_false]
    generalize hs0 : (53 - ((JsNum.log2 p : Int) - (JsNum.log2 q : Int))) = s0 at hlo hhi ⊢
    have hs1 : ∀ s1 : Int,
        s1 = (if 2 ^ 53 ≤ (JsNum.scaled p q s0).1 / (JsNum.scaled p q s0).2 then s0 - 1
          else s0) →
        2 ^ 52 ≤ (JsNum.scaled p q s1).1 / (JsNum.scaled p q s1).2 ∧
        (JsNum.scaled p q s1).1 / (JsNum.scaled p q s1).2 < 2 ^ 53 := by
      intro s1 h
      by_cases hbig : 2 ^ 53 ≤ (JsNum.scaled p q s0).1 / (JsNum.scaled p q s0).2
      · rw [if_pos hbig] at h
        rw [h, JsNum.scaled_pred]
        omega
      · rw [if_neg hbig] at h
        rw [h]
        omega
    generalize hs1d : (if 2 ^ 53 ≤ (JsNum.scaled p q s0).1 / (JsNum.scaled p q s0).2 then s0 - 1
          else s0) = s1 at hs1 ⊢
    obtain ⟨h52, h53⟩ := hs1 s1 rfl
    have hmono := JsNum.scaled_mono p q (min s1 (ex + 1074)) s1 (min_le_left _ _)
    have hmin : min s1 (ex + 1074) = s1 ∨
        (min s1 (ex + 1074) = ex + 1074 ∧ ex + 1074 ≤ s1) := by
      rcases le_total s1 (ex + 1074) with h | h
      · exact Or.inl (min_eq_left h)
      · exact Or.inr ⟨min_eq_right h, h⟩
    have hle : min s1 (ex + 1074) ≤ ex + 1074 := min_le_right _ _
    generalize min s1 (ex + 1074) = s at hmono hmin hle ⊢
    apply JsNum.round_tail_canonical
    · split <;> omega
    · omega
    · rcases hmin with h | ⟨h, _⟩
      · left
        subst h
        split <;> omega
      · right
        omega

/-- A sum is a binary64 value. -/
theorem JsNum.add_canonical (a b : JsNum) : (JsNum.add a b).canonical = true := by
  cases a with
  | nan => cases b <;> rfl
  | inf s =>
    cases b with
    | nan => rfl
    | inf t => simp only [JsNum.add]; split <;> rfl
    | fin t n f => rfl
  | fin s m e =>
    cases b with
    | nan => rfl
    | inf t => rfl
    | fin t n f =>
      simp only [JsNum.add]
      split
      · simp [JsNum.canonical]
      · exact JsNum.round_canonical _ _ 1 _ (by norm_num)

/-- A difference is a binary64 value. -/
theorem JsNum.sub_canonical (a b : JsNum) : (JsNum.sub a b).canonical = true :=
  JsNum.add_canonical a (JsNum.neg b)

/-- A product is a binary64 value. -/
theorem JsNum.mul_canonical (a b : JsNum) : (JsNum.mul a b).canonical = true := by
  cases a with
  | nan => cases b <;> rfl
  | inf s =>
    cases b with
    | nan => rfl
    | inf t => rfl
    | fin t n f => simp only [JsNum.mul]; split <;> rfl
  | fin s m e =>
    cases b with
    | nan => rfl
    | inf t => simp only [JsNum.mul]; split <;> rfl
    | fin t n f => exact JsNum.round_canonical _ _ 1 _ (by norm_num)

/-- A quotient is a binary64 value. -/
theorem JsNum.div_canonical (a b : JsNum) : (JsNum.div a b).canonical = true := by
  cases a with
  | nan => cases b <;> rfl
  | inf s => cases b <;> rfl
  | fin s m e =>
    cases b with
    | nan => rfl
    | inf t => simp [JsNum.div, JsNum.canonical]
    | fin t n f =>
      simp only [JsNum.div]
      by_cases hn : n = 0
      · simp only [hn, if_true]; split <;> rfl
      · simp only [hn, if_false]
        exact JsNum.round_canonical _ _ n _ (Nat.pos_of_ne_zero hn)

/-- The square root of a binary64 value is a binary64 value. -/
theorem JsNum.sqrt_canonical (a : JsNum) (h : a.canonical = true) :
    (JsNum.sqrt a).canonical = true := by
  cases a with
  | nan => rfl
  | inf s => cases s <;> rfl
  | fin s m e =>
    simp only [JsNum.sqrt]
    by_cases hm : m = 0
    · subst hm
      simpa using h
    · simp only [hm, if_false]
      cases s
      · exact JsNum.round_canonical _ _ 1 _ (by norm_num)
      · rfl

/-- A decimal literal denotes a binary64 value. -/
theorem JsNum.ofDecimal_canonical (neg : Bool) (d : Nat) (e10 : Int) :
    (JsNum.ofDecimal neg d e10).canonical = true := by
  cases e10 with
  | ofNat k => exact JsNum.round_canonical _ _ 1 _ (by norm_num)
  | negSucc k => exact JsNum.round_canonical _ _ _ _ (by positivity)


/-! ## The arithmetic operators are correctly rounded -/

/-- The fraction held by `scaled` is `p / q * 2 ^ s`. -/
theorem JsNum.scaled_value (p q : Nat) (s : Int) (hq : 0 < q) :
    ((JsNum.scaled p q s).1 : ℚ) / ((JsNum.scaled p q s).2 : ℚ) =
      (p : ℚ) / (q : ℚ) * (2 : ℚ) ^ s := by
  have hq' : (q : ℚ) ≠ 0 := by positivity
  cases s with
  | ofNat k =>
    simp only [JsNum.scaled, Int.ofNat_eq_coe, zpow_natCast]
    push_cast
    field_simp
  | negSucc k =>
    simp only [JsNum.scaled, zpow_negSucc]
    push_cast
    field_simp

/-- Rounding keeps the sign and moves a fraction by at most half a unit in the
last place of the result: when `round` gives the finite value `m * 2 ^ e`, that
value is within `2 ^ e / 2` of `p / q * 2 ^ ex`. -/
theorem JsNum.round_error (neg sgn : Bool) (p q : Nat) (ex : Int) (hq : 0 < q) (m : Nat)
    (e : Int) (h : JsNum.round neg p q ex = JsNum.fin sgn m e) :
    sgn = neg ∧
    |(m : ℚ) * (2 : ℚ) ^ e - (p : ℚ) / (q : ℚ) * (2 : ℚ) ^ ex| ≤ (2 : ℚ) ^ e / 2 := by
  by_cases hp : p = 0
  · simp only [JsNum.round, hp, if_true, JsNum.fin.injEq] at h
    obtain ⟨hsg, hm, he⟩ := h
    subst hm
    refine ⟨hsg.symm, ?_⟩
    simp only [hp, Nat.cast_zero, zero_mul, zero_div, sub_zero, abs_zero]
    positivity
  · simp only [JsNum.round, hp, if_false] at h
    generalize (min (if 2 ^ 53 ≤
        (JsNum.scaled p q (53 - ((JsNum.log2 p : Int) - (JsNum.log2 q : Int)))).1 /
          (JsNum.scaled p q (53 - ((JsNum.log2 p : Int) - (JsNum.log2 q : Int)))).2
        then 53 - ((JsNum.log2 p : Int) - (JsNum.log2 q : Int)) - 1
        else 53 - ((JsNum.log2 p : Int) - (JsNum.log2 q : Int))) (ex + 1074)) = s at h
    have hval := JsNum.scaled_value p q s hq
    have hden : 0 < (JsNum.scaled p q s).2 := by
      cases s <;> simp only [JsNum.scaled] <;> positivity
    have hdm := Nat.div_add_mod (JsNum.scaled p q s).1 (JsNum.scaled p q s).2
    have hmod := Nat.mod_lt (JsNum.scaled p q s).1 hden
    generalize (JsNum.scaled p q s).1 = num at h hval hdm hmod
    generalize (JsNum.scaled p q s).2 = den at h hval hden hdm hmod
    generalize hm0 : num / den = m0 at h hdm
    generalize hr0 : num % den = r at h hdm hmod
    have hdenQ : (0 : ℚ) < (den : ℚ) := by exact_mod_cast hden
    have hdmQ : (num : ℚ) = (den : ℚ) * m0 + r := by exact_mod_cast hdm.symm
    have hfrac : (num : ℚ) / den = m0 + r / den := by
      rw [hdmQ]; field_simp; ring
    have hr0' : (0 : ℚ) ≤ (r : ℚ) / den := by positivity
    have hr1 : (r : ℚ) / den < 1 := by
      rw [div_lt_one hdenQ]; exact_mod_cast hmod
    generalize hm1 : (if den < 2 * r ∨ 2 * r = den ∧ m0 % 2 = 1 then m0 + 1 else m0) = m1 at h
    have hnear : |(m1 : ℚ) - (num : ℚ) / den| ≤ 1 / 2 := by
      rw [hfrac, abs_le]
      split at hm1
      · rename_i hup
        have hhalf : (1 : ℚ) / 2 ≤ (r : ℚ) / den := by
          rw [le_div_iff₀ hdenQ]
          have : den ≤ 2 * r := by omega
          have : (den : ℚ) ≤ 2 * r := by exact_mod_cast this
          linarith
        rw [← hm1]
        push_cast
        constructor <;> linarith
      · rename_i hdown
        have hhalf : (r : ℚ) / den ≤ 1 / 2 := by
          rw [div_le_iff₀ hdenQ]
          have : 2 * r ≤ den := by omega
          have : (2 : ℚ) * r ≤ den := by exact_mod_cast this
          linarith
        rw [← hm1]
        constructor <;> linarith
    have hexact : (p : ℚ) / q * (2 : ℚ) ^ ex = (num : ℚ) / den * (2 : ℚ) ^ (ex - s) := by
      rw [hval, mul_assoc, ← zpow_add₀ (by norm_num : (2 : ℚ) ≠ 0)]
      congr 2
      ring
    have hy : (0 : ℚ) < (2 : ℚ) ^ (ex - s) := by positivity
    have hres : sgn = neg ∧ (m : ℚ) * (2 : ℚ) ^ e = (m1 : ℚ) * (2 : ℚ) ^ (ex - s) ∧
        (2 : ℚ) ^ (ex - s) ≤ (2 : ℚ) ^ e := by
      by_cases hbig : m1 = 2 ^ 53
      · simp only [hbig, if_true] at h
        split at h
        · exact absurd h (by simp)
        · simp only [JsNum.fin.injEq] at h
          obtain ⟨hsg, hm, he⟩ := h
          rw [← hm, ← he, hbig, zpow_add_one₀ (by norm_num : (2 : ℚ) ≠ 0)]
          push_cast
          refine ⟨hsg.symm, ?_, ?_⟩
          · ring
          · linarith
      · simp only [hbig, if_false] at h
        split at h
        · exact absurd h (by simp)
        · simp only [JsNum.fin.injEq] at h
          obtain ⟨hsg, hm, he⟩ := h
          rw [← hm, ← he]
          exact ⟨hsg.symm, rfl, le_refl _⟩
    refine ⟨hres.1, ?_⟩
    rw [hexact, hres.2.1, ← sub_mul, abs_mul, abs_of_pos hy]
    calc |(m1 : ℚ) - (num : ℚ) / den| * (2 : ℚ) ^ (ex - s)
        ≤ 1 / 2 * (2 : ℚ) ^ (ex - s) := mul_le_mul_of_nonneg_right hnear (le_of_lt hy)
      _ ≤ (2 : ℚ) ^ e / 2 := by linarith [hres.2.2]

/-- The sign factor of a product of signs. -/
theorem JsNum.sign_xor (s t : Bool) :
    (if xor s t then (-1 : ℚ) else 1) = (if s then (-1 : ℚ) else 1) * (if t then -1 else 1) := by
  cases s <;> cases t <;> simp

/-- The `/` operator is correctly rounded: a finite quotient of finite Numbers
is within half a unit in its last place of the exact quotient. -/
theorem JsNum.div_error (s t u : Bool) (m n k : Nat) (e f g : Int) (hn : n ≠ 0)
    (h : JsNum.div (JsNum.fin s m e) (JsNum.fin t n f) = JsNum.fin u k g) :
    |(JsNum.fin u k g).toRat - (JsNum.fin s m e).toRat / (JsNum.fin t n f).toRat| ≤
      (2 : ℚ) ^ g / 2 := by
  simp only [JsNum.div, hn, if_false] at h
  obtain ⟨hsign, herr⟩ := JsNum.round_error _ _ _ _ _ (Nat.pos_of_ne_zero hn) _ _ h
  have hn' : (n : ℚ) ≠ 0 := by exact_mod_cast hn
  have h2 : ((2 : ℚ) ^ f) ≠ 0 := by positivity
  have hst : (if t then (-1 : ℚ) else 1) ≠ 0 := by cases t <;> simp
  have hrew : (JsNum.fin u k g).toRat - (JsNum.fin s m e).toRat / (JsNum.fin t n f).toRat =
      (if s then (-1 : ℚ) else 1) * (if t then -1 else 1) *
        ((k : ℚ) * (2 : ℚ) ^ g - (m : ℚ) / n * (2 : ℚ) ^ (e - f)) := by
    simp only [JsNum.toRat, hsign, JsNum.sign_xor]
    rw [zpow_sub₀ (by norm_num : (2 : ℚ) ≠ 0)]
    cases s <;> cases t <;> field_simp <;> ring
  rw [hrew, abs_mul]
  have habs : |(if s then (-1 : ℚ) else 1) * (if t then -1 else 1)| = 1 := by
    cases s <;> cases t <;> simp
  rw [habs, one_mul]
  exact herr

/-- The `*` operator is correctly rounded: a finite product of finite Numbers
is within half a unit in its last place of the exact product. -/
theorem JsNum.mul_error (s t u : Bool) (m n k : Nat) (e f g : Int)
    (h : JsNum.mul (JsNum.fin s m e) (JsNum.fin t n f) = JsNum.fin u k g) :
    |(JsNum.fin u k g).toRat - (JsNum.fin s m e).toRat * (JsNum.fin t n f).toRat| ≤
      (2 : ℚ) ^ g / 2 := by
  simp only [JsNum.mul] at h
  obtain ⟨hsign, herr⟩ := JsNum.round_error _ _ _ _ _ (by norm_num : 0 < 1) _ _ h
  have hrew : (JsNum.fin u k g).toRat - (JsNum.fin s m e).toRat * (JsNum.fin t n f).toRat =
      (if s then (-1 : ℚ) else 1) * (if t then -1 else 1) *
        ((k : ℚ) * (2 : ℚ) ^ g - ((m * n : Nat) : ℚ) / ((1 : Nat) : ℚ) * (2 : ℚ) ^ (e + f)) := by
    simp only [JsNum.toRat, hsign, JsNum.sign_xor]
    rw [zpow_add₀ (by norm_num : (2 : ℚ) ≠ 0)]
    push_cast
    ring
  rw [hrew, abs_mul]
  have habs : |(if s then (-1 : ℚ) else 1) * (if t then -1 else 1)| = 1 := by
    cases s <;> cases t <;> simp
  rw [habs, one_mul]
  exact herr

/-- The aligned integer, scaled back, is the value of the operand. -/
theorem JsNum.aligned_value (s : Bool) (m : Nat) (e e0 : Int) (h : e0 ≤ e) :
    ((JsNum.aligned s m e e0 : Int) : ℚ) * (2 : ℚ) ^ e0 = (JsNum.fin s m e).toRat := by
  have hpow : ((2 : ℚ) ^ (e - e0).toNat) * (2 : ℚ) ^ e0 = (2 : ℚ) ^ e := by
    rw [← zpow_natCast, Int.toNat_of_nonneg (by omega),
      ← zpow_add₀ (by norm_num : (2 : ℚ) ≠ 0)]
    congr 1
    ring
  simp only [JsNum.aligned, JsNum.toRat]
  cases s
  · simp only [Bool.false_eq_true, if_false]
    push_cast
    rw [mul_assoc, hpow]
    ring
  · simp only [if_true]
    push_cast
    rw [neg_mul, mul_assoc, hpow]
    ring

/-- The `+` operator is correctly rounded: a finite sum of finite Numbers is
within half a unit in its last place of the exact sum. -/
theorem JsNum.add_error (s t u : Bool) (m n k : Nat) (e f g : Int)
    (h : JsNum.add (JsNum.fin s m e) (JsNum.fin t n f) = JsNum.fin u k g) :
    |(JsNum.fin u k g).toRat - ((JsNum.fin s m e).toRat + (JsNum.fin t n f).toRat)| ≤
      (2 : ℚ) ^ g / 2 := by
  have ha := JsNum.aligned_value s m e (min e f) (min_le_left _ _)
  have hb := JsNum.aligned_value t n f (min e f) (min_le_right _ _)
  simp only [JsNum.add] at h
  generalize min e f = e0 at h ha hb
  generalize JsNum.aligned s m e e0 = x at h ha
  generalize JsNum.aligned t n f e0 = y at h hb
  rw [← ha, ← hb, ← add_mul]
  by_cases hv : x + y = 0
  · simp only [hv, if_true, JsNum.fin.injEq] at h
    obtain ⟨_, hk, _⟩ := h
    have hv' : ((x : ℚ) + (y : ℚ)) = 0 := by exact_mod_cast hv
    rw [hv', ← hk]
    simp only [JsNum.toRat, Nat.cast_zero, mul_zero, zero_mul, sub_zero, abs_zero]
    positivity
  · simp only [hv, if_false] at h
    obtain ⟨hsign, herr⟩ := JsNum.round_error _ _ _ _ _ (by norm_num : 0 < 1) _ _ h
    have hcast : ((x : ℚ) + (y : ℚ)) = ((x + y : Int) : ℚ) := by push_cast; rfl
    rw [hcast]
    generalize x + y = v at hv h hsign herr
    have hnat : ((v.natAbs : Nat) : ℚ) = |(v : ℚ)| := by
      rw [Nat.cast_natAbs, Int.cast_abs]
    simp only [Nat.cast_one, div_one] at herr
    rw [hnat] at herr
    simp only [JsNum.toRat, hsign]
    by_cases hneg : v < 0
    · have hq : (v : ℚ) < 0 := by exact_mod_cast hneg
      simp only [hneg, decide_True, if_true]
      rw [abs_of_neg hq] at herr
      have e1 : -1 * (k : ℚ) * (2 : ℚ) ^ g - (v : ℚ) * (2 : ℚ) ^ e0 =
          -((k : ℚ) * (2 : ℚ) ^ g - -(v : ℚ) * (2 : ℚ) ^ e0) := by ring
      rw [e1, abs_neg]
      exact herr
    · have hq : (0 : ℚ) ≤ (v : ℚ) := by exact_mod_cast (not_lt.mp hneg)
      simp only [hneg, decide_False, Bool.false_eq_true, if_false, one_mul]
      rw [abs_of_nonneg hq] at herr
      exact herr


/-! ## Operand validation -/

/-- A calculator handler whose body has an operand that is not a Number takes
the first branch: it sends its type-error envelope. -/
theorem CalcOp.run_of_not_number (pow : JsNum → JsNum → JsNum) (op : CalcOp) (body : Body)
    (h : ∃ k ∈ op.operands, (body.get k).isNumber = false) :
    op.run pow body = badRequest op.invalidMessage := by
  obtain ⟨k, hk, hnum⟩ := h
  cases op <;>
    simp only [CalcOp.operands, List.mem_cons, List.mem_singleton, List.not_mem_nil,
      or_false] at hk <;>
    simp only [CalcOp.run, CalcOp.invalidMessage, addHandler, subtractHandler,
      multiplyHandler, divideHandler, powerHandler, sqrtHandler, percentageHandler]
  all_goals
    first
      | (subst hk
         cases hx : body.get "number" <;> simp_all [JsVal.isNumber])
      | (rcases hk with hk | hk <;> subst hk
         · cases hx : body.get "a" <;> cases hy : body.get "b" <;>
             simp_all [JsVal.isNumber]
         · cases hx : body.get "a" <;> cases hy : body.get "b" <;>
             simp_all [JsVal.isNumber])
      | (rcases hk with hk | hk <;> subst hk
         · cases hx : body.get "value" <;> cases hy : body.get "total" <;>
             simp_all [JsVal.isNumber]
         · cases hx : body.get "value" <;> cases hy : body.get "total" <;>
             simp_all [JsVal.isNumber])

/-- C1: a calculator handler given a body in which some required operand is
absent or is not a Number answers 400 with the handler's own type-error
message and an envelope without a `result` field, whatever the other operand
is. -/
theorem calc_rejects_non_number (pow : JsNum → JsNum → JsNum) (op : CalcOp) (body : Body)
    (h : ∃ k ∈ op.operands, (body.get k).isNumber = false) :
    op.run pow body = badRequest op.invalidMessage ∧
    (op.run pow body).status = 400 ∧
    (op.run pow body).field "error" = JsVal.str op.invalidMessage ∧
    (op.run pow body).hasField "result" = false := by
  rw [CalcOp.run_of_not_number pow op body h]
  refine ⟨rfl, rfl, ?_, ?_⟩
  · simp [badRequest, Response.field, JsVal.field, List.lookup]
  · simp [badRequest, Response.hasField]

/-- C1 at a concrete request: `add` with `a` a string and `b` the number 3. -/
theorem calc_rejects_non_number_witness :
    (∃ k ∈ CalcOp.add.operands,
      (Body.get [("a", JsVal.str "5"), ("b", JsVal.num (JsNum.ofNat 3))] k).isNumber = false) ∧
    (CalcOp.add.run (fun _ _ => JsNum.nan)
        [("a", JsVal.str "5"), ("b", JsVal.num (JsNum.ofNat 3))] =
      badRequest "Both a and b must be numbers") :=
  ⟨⟨"a", by decide, rfl⟩,
   (calc_rejects_non_number (fun _ _ => JsNum.nan) CalcOp.add
      [("a", JsVal.str "5"), ("b", JsVal.num (JsNum.ofNat 3))] ⟨"a", by decide, rfl⟩).1⟩

/-! ## Domain checks of `divide`, `sqrt` and `percentage` -/

/-- C2: with both operands Numbers, `divide` answers 400 'Cannot divide by
zero' exactly when `b` is zero (`+0` or `-0`), and for every other `b` answers
200 with `result` the quotient `a / b`. -/
theorem divide_zero_iff (body : Body) (a b : JsNum)
    (ha : body.get "a" = JsVal.num a) (hb : body.get "b" = JsVal.num b) :
    (((divideHandler body).status = 400 ∧
        (divideHandler body).field "error" = JsVal.str "Cannot divide by zero") ↔
      b.isZero = true) ∧
    (b.isZero = false →
      (divideHandler body).status = 200 ∧
      (divideHandler body).hasField "error" = false ∧
      (divideHandler body).field "result" = JsVal.num (JsNum.div a b)) := by
  unfold divideHandler
  rw [ha, hb]
  cases hz : b.isZero <;>
    simp [hz, badRequest, ok, Response.field, Response.hasField, JsVal.field, List.lookup]

/-- C2 at concrete requests: 10 / 4 succeeds with 2.5. -/
theorem divide_zero_iff_witness :
    Body.get [("a", JsVal.num (JsNum.ofNat 10)), ("b", JsVal.num (JsNum.ofNat 4))] "b" =
      JsVal.num (JsNum.ofNat 4) ∧
    (divideHandler [("a", JsVal.num (JsNum.ofNat 10)), ("b", JsVal.num (JsNum.ofNat 4))]).field
      "result" = JsVal.num (JsNum.ofDecimal false 25 (-1)) :=
  ⟨rfl, ((divide_zero_iff [("a", JsVal.num (JsNum.ofNat 10)), ("b", JsVal.num (JsNum.ofNat 4))]
    (JsNum.ofNat 10) (JsNum.ofNat 4) rfl rfl).2 (by decide)).2.2.trans (congrArg JsVal.num (by decide))⟩

/-- C3: with `number` a Number, `sqrt` answers 400 'Cannot calculate square
root of negative number' exactly when `number < 0`, answers 200 with `result`
the square root for every `number >= 0` (both zeros included), and
`sqrt(16)` gives 4. -/
theorem sqrt_negative_iff (body : Body) (n : JsNum) (hn : body.get "number" = JsVal.num n) :
    (((sqrtHandler body).status = 400 ∧
        (sqrtHandler body).field "error" =
          JsVal.str "Cannot calculate square root of negative number") ↔
      n.ltZero = true) ∧
    (n.geZero = true →
      (sqrtHandler body).status = 200 ∧
      (sqrtHandler body).hasField "error" = false ∧
      (sqrtHandler body).field "result" = JsVal.num (JsNum.sqrt n)) ∧
    (sqrtHandler [("number", JsVal.num (JsNum.ofNat 0))]).status = 200 ∧
    (sqrtHandler [("number", JsVal.num (JsNum.ofNat 16))]).field "result" =
      JsVal.num (JsNum.ofNat 4) := by
  refine ⟨?_, ?_, rfl, ?_⟩
  · unfold sqrtHandler
    rw [hn]
    cases hz : n.ltZero <;>
      simp [hz, badRequest, ok, Response.field, JsVal.field, List.lookup]
  · intro hge
    have hlt : n.ltZero = false := by
      cases n with
      | nan => rfl
      | inf s => cases s <;> simp_all [JsNum.geZero, JsNum.ltZero]
      | fin s m e => cases s <;> simp_all [JsNum.geZero, JsNum.ltZero]
    unfold sqrtHandler
    rw [hn]
    simp [hlt, ok, Response.field, Response.hasField, JsVal.field, List.lookup]
  · exact congrArg JsVal.num (by decide)

/-- C3 at a concrete request: the square root of 2.25 is 1.5. -/
theorem sqrt_negative_iff_witness :
    Body.get [("number", JsVal.num (JsNum.ofDecimal false 225 (-2)))] "number" =
      JsVal.num (JsNum.ofDecimal false 225 (-2)) ∧
    (sqrtHandler [("number", JsVal.num (JsNum.ofDecimal false 225 (-2)))]).field "result" =
      JsVal.num (JsNum.ofDecimal false 15 (-1)) :=
  ⟨rfl, ((sqrt_negative_iff [("number", JsVal.num (JsNum.ofDecimal false 225 (-2)))]
    (JsNum.ofDecimal false 225 (-2)) rfl).2.1 (by decide)).2.2.trans
      (congrArg JsVal.num (by decide))⟩

/-- C4: with both operands Numbers, `percentage` answers 400 'Total cannot be
zero' exactly when `total` is zero, for every other `total` answers 200 with
`result` equal to `(value / total) * 100`, and `percentage(25, 100)` gives
25. -/
theorem percentage_zero_total_iff (body : Body) (value total : JsNum)
    (hv : body.get "value" = JsVal.num value) (ht : body.get "total" = JsVal.num total) :
    (((percentageHandler body).status = 400 ∧
        (percentageHandler body).field "error" = JsVal.str "Total cannot be zero") ↔
      total.isZero = true) ∧
    (total.isZero = false →
      (percentageHandler body).status = 200 ∧
      (percentageHandler body).hasField "error" = false ∧
      (percentageHandler body).field "result" =
        JsVal.num (JsNum.mul (JsNum.div value total) (JsNum.ofNat 100))) ∧
    (percentageHandler [("value", JsVal.num (JsNum.ofNat 25)),
        ("total", JsVal.num (JsNum.ofNat 100))]).field "result" = JsVal.num (JsNum.ofNat 25) := by
  refine ⟨?_, ?_, ?_⟩
  · unfold percentageHandler
    rw [hv, ht]
    cases hz : total.isZero <;>
      simp [hz, badRequest, ok, Response.field, JsVal.field, List.lookup]
  · intro hz
    unfold percentageHandler
    rw [hv, ht]
    simp [hz, ok, Response.field, Response.hasField, JsVal.field, List.lookup]
  · exact congrArg JsVal.num (by decide)

/-- C4 at a concrete request: 1 of 8 is 12.5 percent. -/
theorem percentage_zero_total_iff_witness :
    Body.get [("value", JsVal.num (JsNum.ofNat 1)), ("total", JsVal.num (JsNum.ofNat 8))]
      "total" = JsVal.num (JsNum.ofNat 8) ∧
    (percentageHandler [("value", JsVal.num (JsNum.ofNat 1)),
      ("total", JsVal.num (JsNum.ofNat 8))]).field "result" =
      JsVal.num (JsNum.ofDecimal false 125 (-1)) :=
  ⟨rfl, ((percentage_zero_total_iff
    [("value", JsVal.num (JsNum.ofNat 1)), ("total", JsVal.num (JsNum.ofNat 8))]
    (JsNum.ofNat 1) (JsNum.ofNat 8) rfl rfl).2.1 (by decide)).2.2.trans
      (congrArg JsVal.num (by decide))⟩

/-! ## The `formatted` field of `percentage` -/

/-- The digit producer does not depend on its fuel once the fuel exceeds the
number. -/
theorem JsNum.decDigitsAux_fuel (f g n : Nat) (hf : n < f) (hg : n < g) :
    JsNum.decDigitsAux f n = JsNum.decDigitsAux g n := by
  induction f generalizing g n with
  | zero => omega
  | succ f ih =>
    cases g with
    | zero => omega
    | succ g =>
      simp only [JsNum.decDigitsAux]
      by_cases h : n < 10
      · simp [h]
      · simp only [h, if_false]
        rw [ih g (n / 10) (by omega) (by omega)]

/-- A number below ten is written with one digit. -/
theorem JsNum.decDigits_lt_ten (n : Nat) (h : n < 10) :
    JsNum.decDigits n = [JsNum.digitChar n] := by
  simp [JsNum.decDigits, JsNum.decDigitsAux, h]

/-- A number from ten on is written as its tenth followed by its last digit. -/
theorem JsNum.decDigits_ge_ten (n : Nat) (h : 10 ≤ n) :
    JsNum.decDigits n = JsNum.decDigits (n / 10) ++ [JsNum.digitChar (n % 10)] := by
  have h' : ¬ n < 10 := by omega
  show JsNum.decDigitsAux (n + 1) n =
    JsNum.decDigitsAux (n / 10 + 1) (n / 10) ++ [JsNum.digitChar (n % 10)]
  rw [JsNum.decDigitsAux]
  simp only [h', if_false]
  rw [JsNum.decDigitsAux_fuel n (n / 10 + 1) (n / 10) (by omega) (by omega)]

/-- Every number is written with at least one digit. -/
theorem JsNum.decDigits_length_pos (n : Nat) : 0 < (JsNum.decDigits n).length := by
  by_cases h : n < 10
  · simp [JsNum.decDigits_lt_ten n h]
  · simp [JsNum.decDigits_ge_ten n (by omega)]

/-- Splitting the zero-padded digits of `n` two places from the end gives the
digits of `n / 100`, then the tens digit and the units digit of `n`. -/
theorem JsNum.split_hundredths (n : Nat) :
    (let ds := JsNum.decDigits n
     let padded := if ds.length ≤ 2 then List.replicate (3 - ds.length) '0' ++ ds else ds
     padded.take (padded.length - 2) ++ '.' :: padded.drop (padded.length - 2)) =
    JsNum.decDigits (n / 100) ++
      ['.', JsNum.digitChar (n / 10 % 10), JsNum.digitChar (n % 10)] := by
  by_cases h1 : n < 10
  · have e1 : n / 100 = 0 := by omega
    have e2 : n / 10 % 10 = 0 := by omega
    have e3 : n % 10 = n := by omega
    rw [e1, e2, e3]
    simp [JsNum.decDigits_lt_ten n h1, JsNum.decDigits_lt_ten 0 (by omega), JsNum.digitChar,
      List.replicate]
  · by_cases h2 : n < 100
    · have e1 : n / 100 = 0 := by omega
      have e2 : n / 10 % 10 = n / 10 := by omega
      rw [e1, e2]
      simp [JsNum.decDigits_ge_ten n (by omega), JsNum.decDigits_lt_ten (n / 10) (by omega),
        JsNum.decDigits_lt_ten 0 (by omega), JsNum.digitChar, List.replicate]
    · have e1 : n / 10 / 10 = n / 100 := by omega
      have hlen := JsNum.decDigits_length_pos (n / 100)
      simp only [JsNum.decDigits_ge_ten n (by omega),
        JsNum.decDigits_ge_ten (n / 10) (by omega), e1]
      simp only [List.length_append, List.length_singleton, List.append_assoc,
        List.singleton_append]
      generalize JsNum.decDigits (n / 100) = A at hlen ⊢
      have hnot : ¬ (A.length + 2 ≤ 2) := by omega
      simp only [List.length_cons, List.length_nil, List.length_append, Nat.zero_add,
        Nat.reduceAdd, hnot, if_false, Nat.add_sub_cancel]
      rw [List.take_left' rfl, List.drop_left' rfl]

/-- The integer `toFixed` picks is a nearest one: the hundredths it denotes are
within half a hundredth of the magnitude `m * 2 ^ e`. -/
theorem JsNum.hundredths_nearest (m : Nat) (e : Int) :
    |((JsNum.hundredths m e : Nat) : ℚ) / 100 - (m : ℚ) * (2 : ℚ) ^ e| ≤ 1 / 200 := by
  cases e with
  | ofNat k =>
    simp only [JsNum.hundredths]
    push_cast
    rw [Int.ofNat_eq_coe, zpow_natCast]
    have h0 : (m : ℚ) * 2 ^ k * 100 / 100 - m * 2 ^ k = 0 := by ring
    rw [h0]
    norm_num
  | negSucc k =>
    simp only [JsNum.hundredths]
    rw [zpow_negSucc]
    have hdm := Nat.div_add_mod (m * 200 + 2 ^ (k + 1)) (2 ^ (k + 2))
    have hr : (m * 200 + 2 ^ (k + 1)) % 2 ^ (k + 2) < 2 ^ (k + 2) :=
      Nat.mod_lt _ (by positivity)
    generalize (m * 200 + 2 ^ (k + 1)) / 2 ^ (k + 2) = q at hdm ⊢
    generalize (m * 200 + 2 ^ (k + 1)) % 2 ^ (k + 2) = r at hdm hr
    have hdmQ : ((2 : ℚ) ^ (k + 2)) * q + r = m * 200 + 2 ^ (k + 1) := by
      exact_mod_cast hdm
    have hrQ : (r : ℚ) < 2 ^ (k + 2) := by exact_mod_cast hr
    have hr0 : (0 : ℚ) ≤ r := by positivity
    have hP : (0 : ℚ) < 2 ^ (k + 1) := by positivity
    have h2 : (2 : ℚ) ^ (k + 2) = 2 * 2 ^ (k + 1) := by ring
    rw [h2] at hdmQ hrQ
    generalize (2 : ℚ) ^ (k + 1) = P at hdmQ hrQ hP ⊢
    have hdiff : (q : ℚ) / 100 - m * P⁻¹ = (P - r) / (200 * P) := by
      field_simp
      linear_combination (100 * P) * hdmQ
    rw [hdiff, abs_le]
    constructor
    · rw [le_div_iff₀ (by positivity)]
      linarith
    · rw [div_le_iff₀ (by positivity)]
      linarith

/-- A magnitude below `10 ^ 21` takes the fixed-point branch of `toFixed`. -/
theorem JsNum.geTenPow21_of_lt (m : Nat) (e : Int)
    (h : (m : ℚ) * (2 : ℚ) ^ e < 10 ^ 21) : JsNum.geTenPow21 m e = false := by
  cases e with
  | ofNat k =>
    rw [Int.ofNat_eq_coe, zpow_natCast] at h
    have h' : m * 2 ^ k < 10 ^ 21 := by exact_mod_cast h
    simp only [JsNum.geTenPow21, decide_eq_false_iff_not, not_le]
    exact h'
  | negSucc k =>
    rw [zpow_negSucc, ← div_eq_mul_inv, div_lt_iff₀ (by positivity)] at h
    have h' : m < 10 ^ 21 * 2 ^ (k + 1) := by exact_mod_cast h
    simp only [JsNum.geTenPow21, decide_eq_false_iff_not, not_le]
    exact h'

/-- On a finite Number of magnitude below `10 ^ 21`, `toFixed(2)` writes an
optional minus sign, the digits of the whole part, a point and two digits. -/
theorem JsNum.toFixed2_small (s : Bool) (m : Nat) (e : Int)
    (h : JsNum.geTenPow21 m e = false) :
    JsNum.toFixed2 (JsNum.fin s m e) =
      (if s && decide (m ≠ 0) then ['-'] else []) ++
        (JsNum.decDigits (JsNum.hundredths m e / 100) ++
          ['.', JsNum.digitChar (JsNum.hundredths m e / 10 % 10),
            JsNum.digitChar (JsNum.hundredths m e % 10)]) := by
  have hs := JsNum.split_hundredths (JsNum.hundredths m e)
  simp only [JsNum.toFixed2, h, Bool.false_eq_true, if_false]
  rw [← hs]

/-- A `percentage` response with status 200 comes from the last branch of the
handler: both operands are Numbers and the fields are computed from them. -/
theorem percentage_success (body : Body) (h : (percentageHandler body).status = 200) :
    ∃ value total : JsNum,
      percentageHandler body =
        ok [("operation", JsVal.str "percentage"), ("value", JsVal.num value),
          ("total", JsVal.num total),
          ("result", JsVal.num (JsNum.mul (JsNum.div value total) (JsNum.ofNat 100))),
          ("formatted", JsVal.str (String.mk
            (JsNum.toFixed2 (JsNum.mul (JsNum.div value total) (JsNum.ofNat 100)) ++ ['%'])))] := by
  unfold percentageHandler at h ⊢
  cases hv : body.get "value" <;> cases ht : body.get "total" <;>
    simp only [hv, ht, badRequest] at h ⊢ <;> try (exact absurd h (by decide))
  rename_i value total
  cases hz : total.isZero
  · exact ⟨value, total, by simp⟩
  · simp [hz] at h

/-- C5, as stated, fails: with operands that are finite binary64 values,
`percentage(1e21, 1)` answers 200 with `result` equal to `1e23` and
`formatted` equal to "1e+23%", which has no decimal places, and
`percentage(1e308, 0.1)` answers 200 with `result` equal to `Infinity` and
`formatted` equal to "Infinity%". -/
theorem percentage_formatted_not_fixed :
    (JsNum.ofDecimal false 1 21).canonical = true ∧
    (JsNum.ofDecimal false 1 308).canonical = true ∧
    (JsNum.ofDecimal false 1 (-1)).canonical = true ∧
    (percentageHandler [("value", JsVal.num (JsNum.ofDecimal false 1 21)),
      ("total", JsVal.num (JsNum.ofNat 1))]).status = 200 ∧
    (percentageHandler [("value", JsVal.num (JsNum.ofDecimal false 1 21)),
      ("total", JsVal.num (JsNum.ofNat 1))]).field "result" =
        JsVal.num (JsNum.ofDecimal false 1 23) ∧
    (percentageHandler [("value", JsVal.num (JsNum.ofDecimal false 1 21)),
      ("total", JsVal.num (JsNum.ofNat 1))]).field "formatted" = JsVal.str "1e+23%" ∧
    (percentageHandler [("value", JsVal.num (JsNum.ofDecimal false 1 308)),
      ("total", JsVal.num (JsNum.ofDecimal false 1 (-1)))]).status = 200 ∧
    (percentageHandler [("value", JsVal.num (JsNum.ofDecimal false 1 308)),
      ("total", JsVal.num (JsNum.ofDecimal false 1 (-1)))]).field "result" =
        JsVal.num (JsNum.inf false) ∧
    (percentageHandler [("value", JsVal.num (JsNum.ofDecimal false 1 308)),
      ("total", JsVal.num (JsNum.ofDecimal false 1 (-1)))]).field "formatted" =
        JsVal.str "Infinity%" :=
  ⟨rfl, rfl, rfl, rfl, rfl, rfl, rfl, rfl, rfl⟩

/-- C5, amended: in every `percentage` response with status 200 whose `result`
is a finite Number of magnitude below `10 ^ 21`, `formatted` is an optional
minus sign, then the decimal numeral of a nearest hundredth of that magnitude
(whole part, a point, exactly two digits), then a single '%'; for
`value = 25`, `total = 100` it is "25.00%". -/
theorem percentage_formatted_two_decimals (body : Body) (s : Bool) (m : Nat) (e : Int)
    (hok : (percentageHandler body).status = 200)
    (hres : (percentageHandler body).field "result" = JsVal.num (JsNum.fin s m e))
    (hsmall : (m : ℚ) * (2 : ℚ) ^ e < 10 ^ 21) :
    (∃ n : Nat, |(n : ℚ) / 100 - (m : ℚ) * (2 : ℚ) ^ e| ≤ 1 / 200 ∧
      (percentageHandler body).field "formatted" =
        JsVal.str (String.mk ((if s && decide (m ≠ 0) then ['-'] else []) ++
          (JsNum.decDigits (n / 100) ++
            ['.', JsNum.digitChar (n / 10 % 10), JsNum.digitChar (n % 10), '%'])))) ∧
    (percentageHandler [("value", JsVal.num (JsNum.ofNat 25)),
      ("total", JsVal.num (JsNum.ofNat 100))]).field "formatted" = JsVal.str "25.00%" := by
  refine ⟨?_, rfl⟩
  obtain ⟨value, total, hresp⟩ := percentage_success body hok
  rw [hresp] at hres ⊢
  have hx : JsNum.mul (JsNum.div value total) (JsNum.ofNat 100) = JsNum.fin s m e := by
    simpa [ok, Response.field, JsVal.field, List.lookup] using hres
  refine ⟨JsNum.hundredths m e, JsNum.hundredths_nearest m e, ?_⟩
  rw [hx]
  simp [ok, Response.field, JsVal.field, List.lookup,
    JsNum.toFixed2_small s m e (JsNum.geTenPow21_of_lt m e hsmall)]

/-- C5 amended, at a concrete request: 2 of 3 has `result`
`66.66666666666666` and a `formatted` of the stated shape (it is "66.67%"). -/
theorem percentage_formatted_two_decimals_witness :
    (percentageHandler [("value", JsVal.num (JsNum.ofNat 2)),
      ("total", JsVal.num (JsNum.ofNat 3))]).status = 200 ∧
    (percentageHandler [("value", JsVal.num (JsNum.ofNat 2)),
      ("total", JsVal.num (JsNum.ofNat 3))]).field "result" =
        JsVal.num (JsNum.fin false 4691249611844266 (-46)) ∧
    ((4691249611844266 : Nat) : ℚ) * (2 : ℚ) ^ (-46 : Int) < 10 ^ 21 ∧
    (percentageHandler [("value", JsVal.num (JsNum.ofNat 2)),
      ("total", JsVal.num (JsNum.ofNat 3))]).field "formatted" = JsVal.str "66.67%" ∧
    ∃ n : Nat, |(n : ℚ) / 100 - ((4691249611844266 : Nat) : ℚ) * (2 : ℚ) ^ (-46 : Int)| ≤
        1 / 200 ∧
      (percentageHandler [("value", JsVal.num (JsNum.ofNat 2)),
        ("total", JsVal.num (JsNum.ofNat 3))]).field "formatted" =
        JsVal.str (String.mk ((if false && decide (4691249611844266 ≠ 0) then ['-'] else []) ++
          (JsNum.decDigits (n / 100) ++
            ['.', JsNum.digitChar (n / 10 % 10), JsNum.digitChar (n % 10), '%']))) :=
  ⟨rfl, rfl, by norm_num, rfl,
    (percentage_formatted_two_decimals
      [("value", JsVal.num (JsNum.ofNat 2)), ("total", JsVal.num (JsNum.ofNat 3))]
      false 4691249611844266 (-46) rfl (by rfl) (by norm_num)).1⟩


/-! ## Results of `add`, `subtract` and `multiply` -/

/-- C6: with both operands Numbers (finite or not), `add`, `subtract` and
`multiply` answer 200, never an error envelope, with `result` equal to
`a + b`, `a - b` and `a * b`. -/
theorem add_sub_mul_results (body : Body) (a b : JsNum)
    (ha : body.get "a" = JsVal.num a) (hb : body.get "b" = JsVal.num b) :
    ((addHandler body).status = 200 ∧ (addHandler body).hasField "error" = false ∧
      (addHandler body).field "result" = JsVal.num (JsNum.add a b)) ∧
    ((subtractHandler body).status = 200 ∧ (subtractHandler body).hasField "error" = false ∧
      (subtractHandler body).field "result" = JsVal.num (JsNum.sub a b)) ∧
    ((multiplyHandler body).status = 200 ∧ (multiplyHandler body).hasField "error" = false ∧
      (multiplyHandler body).field "result" = JsVal.num (JsNum.mul a b)) := by
  unfold addHandler subtractHandler multiplyHandler
  rw [ha, hb]
  simp [ok, Response.field, Response.hasField, JsVal.field, List.lookup]

/-- C6 at a concrete request: 0.1 + 0.2, 0.1 - 0.2 and 0.1 * 0.2 in binary64. -/
theorem add_sub_mul_results_witness :
    Body.get [("a", JsVal.num (JsNum.ofDecimal false 1 (-1))),
      ("b", JsVal.num (JsNum.ofDecimal false 2 (-1)))] "a" =
        JsVal.num (JsNum.ofDecimal false 1 (-1)) ∧
    (addHandler [("a", JsVal.num (JsNum.ofDecimal false 1 (-1))),
      ("b", JsVal.num (JsNum.ofDecimal false 2 (-1)))]).field "result" =
        JsVal.num (JsNum.ofDecimal false 30000000000000004 (-17)) ∧
    (subtractHandler [("a", JsVal.num (JsNum.ofDecimal false 1 (-1))),
      ("b", JsVal.num (JsNum.ofDecimal false 2 (-1)))]).field "result" =
        JsVal.num (JsNum.ofDecimal true 1 (-1)) ∧
    (multiplyHandler [("a", JsVal.num (JsNum.ofDecimal false 1 (-1))),
      ("b", JsVal.num (JsNum.ofDecimal false 2 (-1)))]).field "result" =
        JsVal.num (JsNum.ofDecimal false 20000000000000004 (-18)) :=
  have h := add_sub_mul_results
    [("a", JsVal.num (JsNum.ofDecimal false 1 (-1))),
      ("b", JsVal.num (JsNum.ofDecimal false 2 (-1)))]
    (JsNum.ofDecimal false 1 (-1)) (JsNum.ofDecimal false 2 (-1)) rfl rfl
  ⟨rfl, h.1.2.2.trans (congrArg JsVal.num (by decide)),
    h.2.1.2.2.trans (congrArg JsVal.num (by decide)),
    h.2.2.2.2.trans (congrArg JsVal.num (by decide))⟩

/-- Number addition is commutative. -/
theorem JsNum.add_comm (a b : JsNum) : JsNum.add a b = JsNum.add b a := by
  cases a with
  | nan => cases b <;> rfl
  | inf s =>
    cases b with
    | nan => rfl
    | inf t => cases s <;> cases t <;> rfl
    | fin t n f => rfl
  | fin s m e =>
    cases b with
    | nan => rfl
    | inf t => rfl
    | fin t n f =>
      simp only [JsNum.add]
      rw [min_comm f e, Int.add_comm (JsNum.aligned t n f (min e f)), Bool.and_comm t s]

/-- Number multiplication is commutative. -/
theorem JsNum.mul_comm (a b : JsNum) : JsNum.mul a b = JsNum.mul b a := by
  cases a with
  | nan => cases b <;> rfl
  | inf s =>
    cases b with
    | nan => rfl
    | inf t => simp only [JsNum.mul, Bool.xor_comm]
    | fin t n f => simp only [JsNum.mul, Bool.xor_comm]
  | fin s m e =>
    cases b with
    | nan => rfl
    | inf t => simp only [JsNum.mul, Bool.xor_comm]
    | fin t n f =>
      simp only [JsNum.mul]
      rw [Bool.xor_comm t s, Nat.mul_comm n m, Int.add_comm f e]

/-- C7: swapping the operands of `add` or of `multiply` leaves the `result`
field unchanged, for all Numbers `a` and `b`. -/
theorem add_multiply_commute (a b : JsNum) :
    (addHandler [("a", JsVal.num a), ("b", JsVal.num b)]).field "result" =
      (addHandler [("a", JsVal.num b), ("b", JsVal.num a)]).field "result" ∧
    (multiplyHandler [("a", JsVal.num a), ("b", JsVal.num b)]).field "result" =
      (multiplyHandler [("a", JsVal.num b), ("b", JsVal.num a)]).field "result" := by
  have e1 : ∀ x y : JsNum, (addHandler [("a", JsVal.num x), ("b", JsVal.num y)]).field "result"
      = JsVal.num (JsNum.add x y) := fun _ _ => rfl
  have e2 : ∀ x y : JsNum,
      (multiplyHandler [("a", JsVal.num x), ("b", JsVal.num y)]).field "result"
      = JsVal.num (JsNum.mul x y) := fun _ _ => rfl
  rw [e1, e1, e2, e2, JsNum.add_comm a b, JsNum.mul_comm a b]
  exact ⟨rfl, rfl⟩

/-! ## What the operand check admits -/

/-- C8, as stated, fails: the body `{"a": 1e999, "b": 1}` parses to `a` equal to
`Infinity`, which passes the `typeof` test, so `add` answers 200 with a
`result` computed from an operand that is not finite. -/
theorem add_accepts_infinity :
    JsNum.ofDecimal false 1 999 = JsNum.inf false ∧
    (JsNum.inf false).isFinite = false ∧
    (addHandler [("a", JsVal.num (JsNum.ofDecimal false 1 999)),
      ("b", JsVal.num (JsNum.ofNat 1))]).status = 200 ∧
    (addHandler [("a", JsVal.num (JsNum.ofDecimal false 1 999)),
      ("b", JsVal.num (JsNum.ofNat 1))]).field "result" = JsVal.num (JsNum.inf false) := by
  have h : JsNum.ofDecimal false 1 999 = JsNum.inf false := by decide
  rw [h]
  exact ⟨rfl, rfl, rfl, rfl⟩

/-- C8, amended: whenever a calculator handler answers 200, every operand it
read from the body is a Number (`typeof` gives 'number'): not a string, not
absent, but possibly an infinity. -/
theorem calc_success_operands_are_numbers (pow : JsNum → JsNum → JsNum) (op : CalcOp)
    (body : Body) (h : (op.run pow body).status = 200) :
    ∀ k ∈ op.operands, (body.get k).isNumber = true := by
  intro k hk
  by_contra hnum
  have hfalse : (body.get k).isNumber = false := by
    cases hx : (body.get k).isNumber
    · rfl
    · exact absurd hx hnum
  have h400 := (CalcOp.run_of_not_number pow op body ⟨k, hk, hfalse⟩)
  rw [h400] at h
  simp [badRequest] at h

/-- C8 amended, at a concrete request: `sqrt` of 9 succeeds, so `number` was a
Number. -/
theorem calc_success_operands_are_numbers_witness :
    (CalcOp.sqrt.run (fun _ _ => JsNum.nan) [("number", JsVal.num (JsNum.ofNat 9))]).status =
      200 ∧
    ∀ k ∈ CalcOp.sqrt.operands,
      (Body.get [("number", JsVal.num (JsNum.ofNat 9))] k).isNumber = true :=
  ⟨rfl, calc_success_operands_are_numbers (fun _ _ => JsNum.nan) CalcOp.sqrt
    [("number", JsVal.num (JsNum.ofNat 9))] rfl⟩

/-! ## The zone lookup -/

/-- A name that `hasZone` accepts is one on which the lookup returns a zone. -/
theorem MomentLib.zone_of_hasZone (L : MomentLib) (name : String)
    (h : L.hasZone name = true) : L.zone name = some true := by
  unfold MomentLib.hasZone at h
  exact eq_of_beq h

/-- When the lookup returns, `hasZone` is what it returned. -/
theorem MomentLib.hasZone_of_zone (L : MomentLib) (name : String) (b : Bool)
    (h : L.zone name = some b) : L.hasZone name = b := by
  unfold MomentLib.hasZone
  rw [h]
  cases b <;> rfl

/-- When the lookup throws, `hasZone` is false. -/
theorem MomentLib.hasZone_of_throw (L : MomentLib) (name : String)
    (h : L.zone name = none) : L.hasZone name = false := by
  unfold MomentLib.hasZone
  rw [h]
  rfl

/-- No zone is named by the empty string. -/
theorem MomentLib.ne_empty_of_hasZone (L : MomentLib) (name : String)
    (h : L.hasZone name = true) : name ≠ "" := by
  intro he
  have hz := L.zone_of_hasZone name h
  rw [he] at hz
  unfold MomentLib.zone at hz
  rw [L.zone_nonempty] at hz
  cases hz

/-- A name of a packed zone of the loaded data is one on which the lookup
returns a zone. -/
theorem MomentLib.zone_of_mem (L : MomentLib) (name : String) (h : name ∈ L.zoneNames) :
    L.zone name = some true := by
  have hk : (zoneKeys L.lower L.zoneNames).contains (normalizeName L.lower name) = true := by
    unfold zoneKeys
    simp only [List.contains_eq_any_beq, List.any_eq_true, beq_iff_eq]
    exact ⟨_, List.mem_map_of_mem _ h, rfl⟩
  unfold MomentLib.zone getZone
  simp only [hk, if_true]

/-- With a non-empty datetime text and two zones of the database, `convert`
takes its last branch. -/
theorem convertHandler_ok (L : MomentLib) (body : Body) (dt f t : String)
    (hdt : dt ≠ "") (hf : L.hasZone f = true) (ht : L.hasZone t = true)
    (h1 : body.get "datetime" = JsVal.str dt)
    (h2 : body.get "fromTimezone" = JsVal.str f)
    (h3 : body.get "toTimezone" = JsVal.str t) :
    convertHandler L body = some (ok [
      ("original", JsVal.obj [("timezone", JsVal.str f),
        ("datetime", JsVal.str (L.format (L.tz (JsVal.str dt) f) none)),
        ("formatted", JsVal.str
          (L.format (L.tz (JsVal.str dt) f) (some "MMMM D, YYYY h:mm:ss A z")))]),
      ("converted", JsVal.obj [("timezone", JsVal.str t),
        ("datetime", JsVal.str (L.format ((L.tz (JsVal.str dt) f).tz t) none)),
        ("formatted", JsVal.str
          (L.format ((L.tz (JsVal.str dt) f).tz t) (some "MMMM D, YYYY h:mm:ss A z")))])]) := by
  have hfne : f ≠ "" := L.ne_empty_of_hasZone f hf
  have htne : t ≠ "" := L.ne_empty_of_hasZone t ht
  have hdtT : (JsVal.str dt).truthy = true := by simp [JsVal.truthy, hdt]
  have hfT : (JsVal.str f).truthy = true := by simp [JsVal.truthy, hfne]
  have htT : (JsVal.str t).truthy = true := by simp [JsVal.truthy, htne]
  unfold convertHandler
  simp only [h1, h2, h3]
  simp only [hdtT, hfT, htT, L.zone_of_hasZone f hf, L.zone_of_hasZone t ht, Bool.not_true,
    Bool.or_self, Bool.false_eq_true, if_false]

/-- Past the missing-field test `convert` throws, answers 'Invalid timezone'
or answers with a success envelope. -/
theorem convertHandler_past_guard (L : MomentLib) (body : Body)
    (h1 : (body.get "datetime").truthy = true) (h2 : (body.get "fromTimezone").truthy = true)
    (h3 : (body.get "toTimezone").truthy = true) :
    convertHandler L body = none ∨
    convertHandler L body = some (badRequest "Invalid timezone") ∨
    ∃ members, convertHandler L body = some (ok members) ∧ (ok members).conforms = true := by
  unfold convertHandler
  simp only [h1, h2, h3, Bool.not_true, Bool.or_self, Bool.false_eq_true, if_false]
  split
  · split
    · exact Or.inl rfl
    · exact Or.inr (Or.inl rfl)
    · split
      · split
        · exact Or.inl rfl
        · exact Or.inr (Or.inl rfl)
        · exact Or.inr (Or.inr ⟨_, rfl, rfl⟩)
      · exact Or.inl rfl
  · exact Or.inl rfl

/-! ## `convert` -/

/-- The two error envelopes of `convert` are different responses. -/
theorem missing_ne_invalid :
    badRequest "Missing required fields" ≠ badRequest "Invalid timezone" := by
  intro h
  have h2 := congrArg (fun r => r.field "error") h
  simp [badRequest, Response.field, JsVal.field, List.lookup] at h2

/-- C9, as stated, fails: in the body
`{"datetime": "", "fromTimezone": "Mars/Phobos", "toTimezone": "UTC"}` all
three fields are present and `fromTimezone` is not in the zone database, yet
the answer is 'Missing required fields', not 'Invalid timezone'. -/
theorem convert_present_but_empty :
    Body.get [("datetime", JsVal.str ""), ("fromTimezone", JsVal.str "Mars/Phobos"),
      ("toTimezone", JsVal.str "UTC")] "datetime" = JsVal.str "" ∧
    sampleLib.hasZone "Mars/Phobos" = false ∧
    convertHandler sampleLib [("datetime", JsVal.str ""),
      ("fromTimezone", JsVal.str "Mars/Phobos"), ("toTimezone", JsVal.str "UTC")] =
        some (badRequest "Missing required fields") ∧
    convertHandler sampleLib [("datetime", JsVal.str ""),
      ("fromTimezone", JsVal.str "Mars/Phobos"), ("toTimezone", JsVal.str "UTC")] ≠
        some (badRequest "Invalid timezone") := by
  refine ⟨rfl, rfl, rfl, ?_⟩
  intro h
  have h2 : some (badRequest "Missing required fields") = some (badRequest "Invalid timezone") :=
    h
  exact missing_ne_invalid (Option.some.inj h2)

/-- C9, amended: `convert` answers 400 'Missing required fields' when any of
`datetime`, `fromTimezone`, `toTimezone` is absent, and more generally when any
of them is falsy, whatever the zones are; when all three are truthy, both zone
fields are strings and the zone lookup returns on both of them, it answers 400
'Invalid timezone' exactly when one of the two zones is not in the zone
database.  Nothing is said here about names on which the lookup throws. -/
theorem convert_errors (L : MomentLib) (body : Body) :
    ((body.get "datetime" = JsVal.undefined ∨ body.get "fromTimezone" = JsVal.undefined ∨
        body.get "toTimezone" = JsVal.undefined) →
      convertHandler L body = some (badRequest "Missing required fields")) ∧
    (((body.get "datetime").truthy = false ∨ (body.get "fromTimezone").truthy = false ∨
        (body.get "toTimezone").truthy = false) →
      convertHandler L body = some (badRequest "Missing required fields")) ∧
    (∀ f t : String, (body.get "datetime").truthy = true →
      body.get "fromTimezone" = JsVal.str f → f ≠ "" →
      body.get "toTimezone" = JsVal.str t → t ≠ "" →
      L.zone f ≠ none → L.zone t ≠ none →
      (convertHandler L body = some (badRequest "Invalid timezone") ↔
        (L.hasZone f = false ∨ L.hasZone t = false))) := by
  have falsy : ((body.get "datetime").truthy = false ∨ (body.get "fromTimezone").truthy = false ∨
        (body.get "toTimezone").truthy = false) →
      convertHandler L body = some (badRequest "Missing required fields") := by
    intro h
    unfold convertHandler
    rcases h with h | h | h <;> simp [h]
  refine ⟨?_, falsy, ?_⟩
  · intro h
    apply falsy
    rcases h with h | h | h
    · exact Or.inl (by rw [h]; rfl)
    · exact Or.inr (Or.inl (by rw [h]; rfl))
    · exact Or.inr (Or.inr (by rw [h]; rfl))
  · intro f t hd hf hfne ht htne hzf hzt
    have hft : (JsVal.str f).truthy = true := by simp [JsVal.truthy, hfne]
    have htt : (JsVal.str t).truthy = true := by simp [JsVal.truthy, htne]
    obtain ⟨bf, hbf⟩ := Option.ne_none_iff_exists'.mp hzf
    obtain ⟨bt, hbt⟩ := Option.ne_none_iff_exists'.mp hzt
    rw [L.hasZone_of_zone f bf hbf, L.hasZone_of_zone t bt hbt]
    unfold convertHandler
    simp only [hf, ht]
    cases bf <;> cases bt <;>
      simp [hd, hft, htt, hbf, hbt, ok, badRequest]

/-- C9 amended, at concrete requests: with the stand-in database, a body
without `toTimezone` is reported as incomplete although its `fromTimezone` is
unknown, and a complete body with an unknown `fromTimezone` is reported as
'Invalid timezone'. -/
theorem convert_errors_witness :
    convertHandler sampleLib [("datetime", JsVal.str "2026-01-05 10:00:00"),
      ("fromTimezone", JsVal.str "Mars/Phobos")] =
        some (badRequest "Missing required fields") ∧
    sampleLib.zone "Mars/Phobos" = some false ∧ sampleLib.zone "UTC" = some true ∧
    convertHandler sampleLib [("datetime", JsVal.str "2026-01-05 10:00:00"),
      ("fromTimezone", JsVal.str "Mars/Phobos"), ("toTimezone", JsVal.str "UTC")] =
        some (badRequest "Invalid timezone") :=
  ⟨(convert_errors sampleLib [("datetime", JsVal.str "2026-01-05 10:00:00"),
      ("fromTimezone", JsVal.str "Mars/Phobos")]).1 (Or.inr (Or.inr rfl)), rfl, rfl,
   ((convert_errors sampleLib [("datetime", JsVal.str "2026-01-05 10:00:00"),
      ("fromTimezone", JsVal.str "Mars/Phobos"), ("toTimezone", JsVal.str "UTC")]).2.2
      "Mars/Phobos" "UTC" rfl rfl (by decide) rfl (by decide) (by decide) (by decide)).2
      (Or.inl rfl)⟩

/-- C10, as stated, fails: the empty text is a datetime string, and
`convert("", "UTC", "UTC")` with `UTC` a zone of the database answers 400
'Missing required fields'. -/
theorem convert_same_zone_empty_datetime :
    sampleLib.hasZone "UTC" = true ∧
    convertHandler sampleLib [("datetime", JsVal.str ""), ("fromTimezone", JsVal.str "UTC"),
      ("toTimezone", JsVal.str "UTC")] = some (badRequest "Missing required fields") ∧
    (badRequest "Missing required fields").status = 400 :=
  ⟨rfl, rfl, rfl⟩

/-- C10, amended: for every non-empty datetime string and every zone `tz` of
the database, `convert` with `tz` as both source and target answers 200, and
its `original` and `converted` views agree on `timezone`, `datetime` and
`formatted`. -/
theorem convert_same_zone (L : MomentLib) (body : Body) (dt tz : String)
    (hdt : dt ≠ "") (hz : L.hasZone tz = true)
    (h1 : body.get "datetime" = JsVal.str dt)
    (h2 : body.get "fromTimezone" = JsVal.str tz)
    (h3 : body.get "toTimezone" = JsVal.str tz) :
    ∃ r, convertHandler L body = some r ∧ r.status = 200 ∧
      (r.field "original").field "timezone" = JsVal.str tz ∧
      (r.field "original").field "timezone" = (r.field "converted").field "timezone" ∧
      (r.field "original").field "datetime" = (r.field "converted").field "datetime" ∧
      (r.field "original").field "formatted" = (r.field "converted").field "formatted" := by
  refine ⟨_, convertHandler_ok L body dt tz tz hdt hz hz h1 h2 h3, ?_⟩
  simp [ok, Response.field, JsVal.field, List.lookup, MomentLib.tz, Moment.tz]

/-- C10 amended, at a concrete request: 10:00 on 5 January 2026 from `UTC` to
`UTC` with the two-zone database. -/
theorem convert_same_zone_witness :
    sampleLib.hasZone "UTC" = true ∧
    ∃ r, convertHandler sampleLib [("datetime", JsVal.str "2026-01-05 10:00:00"),
        ("fromTimezone", JsVal.str "UTC"), ("toTimezone", JsVal.str "UTC")] = some r ∧
      r.status = 200 ∧
      (r.field "original").field "timezone" = JsVal.str "UTC" ∧
      (r.field "original").field "timezone" = (r.field "converted").field "timezone" ∧
      (r.field "original").field "datetime" = (r.field "converted").field "datetime" ∧
      (r.field "original").field "formatted" = (r.field "converted").field "formatted" :=
  ⟨rfl, convert_same_zone sampleLib [("datetime", JsVal.str "2026-01-05 10:00:00"),
        ("fromTimezone", JsVal.str "UTC"), ("toTimezone", JsVal.str "UTC")]
      "2026-01-05 10:00:00" "UTC" (by decide) rfl rfl rfl rfl⟩

/-! ## `timezone` and the shape of every response -/

/-- The lookup throws on a name whose key every object inherits (such as
`constructor`), where the loaded data has neither a zone nor a link under that
key. -/
theorem getZone_inherited_key (lower : String → String) (zoneNames : List String)
    (linkPairs : List (String × String)) (name : String)
    (hkey : objectPrototypeKeys.contains (normalizeName lower name) = true)
    (hz : (zoneKeys lower zoneNames).contains (normalizeName lower name) = false)
    (hl : (linkTable lower linkPairs).lookup (normalizeName lower name) = none) :
    getZone lower zoneNames linkPairs name = none := by
  unfold getZone
  simp only [hz, hl, hkey, Bool.false_eq_true, if_false, if_true]

/-- C11 holds of every name on which the zone lookup returns, and the code
misses the names on which it throws.  When `moment.tz.zone` returns `null` the
handler answers 400 'Invalid timezone'; when it returns a zone, as it does for
"America/New_York" where the data has that zone, the handler answers 200 with
`timezone` equal to the parameter and with `datetime`, `formatted` and `offset`
fields; when it throws, as it does on `constructor` and on `__proto__`, the
handler sends no response at all although the name is not a zone of the
database. -/
theorem timezone_lookup_throws (L : MomentLib) (now : Int) (tz : String) :
    (L.zone tz = none → timezoneHandler L now tz = none ∧ L.hasZone tz = false) ∧
    (L.zone tz = some false →
      timezoneHandler L now tz = some (badRequest "Invalid timezone") ∧
      (badRequest "Invalid timezone").status = 400) ∧
    (L.zone tz = some true →
      ∃ r, timezoneHandler L now tz = some r ∧ r.status = 200 ∧
        r.hasField "error" = false ∧
        r.field "timezone" = JsVal.str tz ∧
        r.hasField "datetime" = true ∧ r.hasField "formatted" = true ∧
        r.hasField "offset" = true) ∧
    (objectPrototypeKeys.contains (normalizeName L.lower tz) = true →
      (zoneKeys L.lower L.zoneNames).contains (normalizeName L.lower tz) = false →
      (linkTable L.lower L.linkPairs).lookup (normalizeName L.lower tz) = none →
      timezoneHandler L now tz = none) ∧
    ("America/New_York" ∈ L.zoneNames →
      ∃ r, timezoneHandler L now "America/New_York" = some r ∧ r.status = 200 ∧
        r.field "timezone" = JsVal.str "America/New_York") ∧
    sampleLib.hasZone "constructor" = false ∧
    timezoneHandler sampleLib now "constructor" = none ∧
    timezoneHandler sampleLib now "__proto__" = none := by
  have found : ∀ name : String, L.zone name = some true →
      ∃ r, timezoneHandler L now name = some r ∧ r.status = 200 ∧
        r.hasField "error" = false ∧
        r.field "timezone" = JsVal.str name ∧
        r.hasField "datetime" = true ∧ r.hasField "formatted" = true ∧
        r.hasField "offset" = true := by
    intro name hz
    have hresp : timezoneHandler L now name = some (ok [("timezone", JsVal.str name),
        ("datetime", JsVal.str (L.format ⟨some now, name⟩ none)),
        ("formatted", JsVal.str (L.format ⟨some now, name⟩ (some "MMMM D, YYYY h:mm:ss A z"))),
        ("offset", JsVal.str (L.format ⟨some now, name⟩ (some "Z")))]) := by
      unfold timezoneHandler
      rw [hz]
    refine ⟨_, hresp, ?_⟩
    simp [ok, Response.field, Response.hasField, JsVal.field, List.lookup]
  refine ⟨?_, ?_, found tz, ?_, ?_, rfl, rfl, rfl⟩
  · intro hz
    refine ⟨?_, L.hasZone_of_throw tz hz⟩
    unfold timezoneHandler
    rw [hz]
  · intro hz
    refine ⟨?_, rfl⟩
    unfold timezoneHandler
    rw [hz]
  · intro hkey hz hl
    have h := getZone_inherited_key L.lower L.zoneNames L.linkPairs tz hkey hz hl
    unfold timezoneHandler MomentLib.zone
    rw [h]
  · intro hmem
    obtain ⟨r, hr⟩ := found "America/New_York" (L.zone_of_mem _ hmem)
    exact ⟨r, hr.1, hr.2.1, hr.2.2.2.1⟩

/-- C11 at concrete requests: with the stand-in database `Asia/Tokyo` succeeds
with offset "+09:00", "Not/AZone" is answered 400 'Invalid timezone', and
`constructor`, which is no zone either, gets no response from the handler. -/
theorem timezone_lookup_throws_witness :
    sampleLib.zone "constructor" = none ∧
    timezoneHandler sampleLib 1767607200000 "constructor" = none ∧
    timezoneHandler sampleLib 1767607200000 "constructor" ≠
      some (badRequest "Invalid timezone") ∧
    sampleLib.zone "Not/AZone" = some false ∧
    timezoneHandler sampleLib 1767607200000 "Not/AZone" =
      some (badRequest "Invalid timezone") ∧
    sampleLib.zone "Asia/Tokyo" = some true ∧
    (∃ r, timezoneHandler sampleLib 1767607200000 "Asia/Tokyo" = some r ∧ r.status = 200 ∧
      r.field "offset" = JsVal.str "+09:00") :=
  have hc := ((timezone_lookup_throws sampleLib 1767607200000 "constructor").1 rfl).1
  ⟨rfl, hc, by rw [hc]; exact fun h => Option.noConfusion h,
    rfl, ((timezone_lookup_throws sampleLib 1767607200000 "Not/AZone").2.1 rfl).1, rfl,
    ((timezone_lookup_throws sampleLib 1767607200000 "Asia/Tokyo").2.2.1 rfl).elim
      fun r hr => ⟨r, hr.1, hr.2.1, by
        have h := hr.1
        have h2 : r = ok [("timezone", JsVal.str "Asia/Tokyo"),
            ("datetime", JsVal.str "2026-01-05T19:00:00+09:00"),
            ("formatted", JsVal.str "January 5, 2026 7:00:00 PM JST"),
            ("offset", JsVal.str "+09:00")] := (Option.some.inj h).symm
        rw [h2]
        rfl⟩⟩

/-- Every response of a calculator handler is of one of the two kinds. -/
theorem CalcOp.run_conforms (pow : JsNum → JsNum → JsNum) (op : CalcOp) (body : Body) :
    (op.run pow body).conforms = true := by
  cases op <;>
    simp only [CalcOp.run, addHandler, subtractHandler, multiplyHandler, divideHandler,
      powerHandler, sqrtHandler, percentageHandler] <;>
    split <;> (try split) <;> rfl

/-- Every response `convert` sends is of one of the two kinds. -/
theorem convertHandler_conforms (L : MomentLib) (body : Body) (r : Response)
    (h : convertHandler L body = some r) : r.conforms = true := by
  by_cases hg : (body.get "datetime").truthy = true ∧ (body.get "fromTimezone").truthy = true ∧
      (body.get "toTimezone").truthy = true
  · rcases convertHandler_past_guard L body hg.1 hg.2.1 hg.2.2 with h2 | h2 | ⟨m, h2, hm⟩
    · rw [h2] at h
      cases h
    · rw [h2] at h
      cases h
      rfl
    · rw [h2] at h
      cases h
      exact hm
  · have h2 : convertHandler L body = some (badRequest "Missing required fields") := by
      unfold convertHandler
      have : (!(body.get "datetime").truthy || !(body.get "fromTimezone").truthy ||
          !(body.get "toTimezone").truthy) = true := by
        cases h1 : (body.get "datetime").truthy <;>
          cases h2 : (body.get "fromTimezone").truthy <;>
          cases h3 : (body.get "toTimezone").truthy <;> simp_all
      simp [this]
    rw [h2] at h
    cases h
    rfl

/-- Every response `timezone` sends is of one of the two kinds. -/
theorem timezoneHandler_conforms (L : MomentLib) (now : Int) (tz : String) (r : Response)
    (h : timezoneHandler L now tz = some r) : r.conforms = true := by
  unfold timezoneHandler at h
  split at h
  · cases h
  · cases h
    rfl
  · cases h
    rfl

/-- C12 fails on the code: a handler can end without sending a response, which
the service turns into status 500.  `convert` with a number for `toTimezone`
gets past the missing-field test and into `moment.tz.zone`, which throws;
`timezone` with the name `constructor` throws in the same call.  Every response
the handlers do send is as the claim says: status 400 with an envelope whose
only field is `error`, or status 200 with an envelope without `error`. -/
theorem handler_throws_without_response (pow : JsNum → JsNum → JsNum) (L : MomentLib) :
    convertHandler sampleLib [("datetime", JsVal.str "2026-01-05 10:00:00"),
      ("fromTimezone", JsVal.str "UTC"), ("toTimezone", JsVal.num (JsNum.ofNat 5))] = none ∧
    timezoneHandler sampleLib 1767607200000 "constructor" = none ∧
    (∀ (body : Body) (f : String), (body.get "datetime").truthy = true →
      body.get "fromTimezone" = JsVal.str f → L.hasZone f = true →
      (body.get "toTimezone").truthy = true → (∀ t, body.get "toTimezone" ≠ JsVal.str t) →
      convertHandler L body = none) ∧
    (∀ (op : CalcOp) (body : Body), (op.run pow body).conforms = true) ∧
    (∀ (body : Body) (r : Response), convertHandler L body = some r → r.conforms = true) ∧
    (∀ (now : Int) (tz : String) (r : Response),
      timezoneHandler L now tz = some r → r.conforms = true) ∧
    (timezonesHandler L).conforms = true ∧
    (∀ now : Int, (nowHandler L now).conforms = true) ∧
    rootHandler.conforms = true ∧
    (∀ r : Response, r.conforms = true →
      (r.status = 400 ∧ r.hasField "error" = true) ∨
      (r.status = 200 ∧ r.hasField "error" = false)) := by
  refine ⟨rfl, rfl, ?_, CalcOp.run_conforms pow, convertHandler_conforms L,
    timezoneHandler_conforms L, rfl, fun _ => rfl, rfl, ?_⟩
  · intro body f hd hf hzf htt hns
    have hfne : f ≠ "" := L.ne_empty_of_hasZone f hzf
    have hft : (body.get "fromTimezone").truthy = true := by
      rw [hf]
      simp [JsVal.truthy, hfne]
    unfold convertHandler
    simp only [hd, hft, htt, Bool.not_true, Bool.or_self, Bool.false_eq_true, if_false]
    simp only [hf, L.zone_of_hasZone f hzf]
  · intro r hr
    obtain ⟨status, body⟩ := r
    simp only [Response.conforms, Response.isErrorEnvelope, Response.hasField, Bool.or_eq_true,
      Bool.and_eq_true, beq_iff_eq, Bool.not_eq_true'] at hr ⊢
    rcases hr with ⟨hs, he⟩ | ⟨hs, he⟩
    · left
      refine ⟨hs, ?_⟩
      split at he
      · simp only [Bool.and_eq_true, beq_iff_eq] at he
        simp [he.1]
      · exact absurd he (by simp)
    · right
      exact ⟨hs, he⟩

/-- C12 at concrete requests: `convert` with `toTimezone` equal to `5` sends no
response, while a divide by zero and a conversion between two zones are
answered as the claim says. -/
theorem handler_throws_without_response_witness :
    (Body.get [("datetime", JsVal.str "2026-01-05 10:00:00"),
      ("fromTimezone", JsVal.str "UTC"), ("toTimezone", JsVal.num (JsNum.ofNat 5))]
      "toTimezone").truthy = true ∧
    convertHandler sampleLib [("datetime", JsVal.str "2026-01-05 10:00:00"),
      ("fromTimezone", JsVal.str "UTC"), ("toTimezone", JsVal.num (JsNum.ofNat 5))] = none ∧
    (CalcOp.divide.run (fun _ _ => JsNum.nan)
      [("a", JsVal.num (JsNum.ofNat 1)), ("b", JsVal.num (JsNum.ofNat 0))]).conforms = true ∧
    (divideHandler [("a", JsVal.num (JsNum.ofNat 1)), ("b", JsVal.num (JsNum.ofNat 0))]).status =
      400 :=
  have h := handler_throws_without_response (fun _ _ => JsNum.nan) sampleLib
  ⟨rfl,
    h.2.2.1 [("datetime", JsVal.str "2026-01-05 10:00:00"),
      ("fromTimezone", JsVal.str "UTC"), ("toTimezone", JsVal.num (JsNum.ofNat 5))] "UTC"
      rfl rfl rfl rfl (fun t ht => by cases ht),
    h.2.2.2.1 CalcOp.divide _, rfl⟩

/-! ## Success envelopes of the calculator -/

/-- A calculator handler that answers 200 read a Number for each operand. -/
theorem CalcOp.numbers_of_ok (pow : JsNum → JsNum → JsNum) (op : CalcOp) (body : Body)
    (h : (op.run pow body).status = 200) :
    ∀ k ∈ op.operands, ∃ n, body.get k = JsVal.num n := by
  intro k hk
  cases hx : body.get k with
  | num n => exact ⟨n, rfl⟩
  | _ =>
    have h400 := CalcOp.run_of_not_number pow op body ⟨k, hk, by rw [hx]; rfl⟩
    rw [h400] at h
    simp [badRequest] at h

/-- C13: a calculator handler that answers 200 sends an envelope whose
`operation` is the name fixed for its route, whose operand fields hold the
operands exactly as they were read from the body, and which has a `result`
field. -/
theorem calc_success_echoes (pow : JsNum → JsNum → JsNum) (op : CalcOp) (body : Body)
    (h : (op.run pow body).status = 200) :
    (op.run pow body).field "operation" = JsVal.str op.operationName ∧
    (∀ k ∈ op.operands, (op.run pow body).field k = body.get k) ∧
    (op.run pow body).hasField "result" = true := by
  have hnum := CalcOp.numbers_of_ok pow op body h
  cases op
  case sqrt =>
    obtain ⟨n, hn⟩ := hnum "number" (by simp [CalcOp.operands])
    simp only [CalcOp.run, sqrtHandler, hn] at h ⊢
    by_cases hlt : n.ltZero = true
    · simp [hlt, badRequest] at h
    · simp [hlt, hn, ok, Response.field, Response.hasField, JsVal.field, List.lookup,
        CalcOp.operationName, CalcOp.operands]
  case percentage =>
    obtain ⟨v, hv⟩ := hnum "value" (by simp [CalcOp.operands])
    obtain ⟨t, ht⟩ := hnum "total" (by simp [CalcOp.operands])
    simp only [CalcOp.run, percentageHandler, hv, ht] at h ⊢
    by_cases hz : t.isZero = true
    · simp [hz, badRequest] at h
    · simp [hz, hv, ht, ok, Response.field, Response.hasField, JsVal.field, List.lookup,
        CalcOp.operationName, CalcOp.operands]
  case divide =>
    obtain ⟨a, ha⟩ := hnum "a" (by simp [CalcOp.operands])
    obtain ⟨b, hb⟩ := hnum "b" (by simp [CalcOp.operands])
    simp only [CalcOp.run, divideHandler, ha, hb] at h ⊢
    by_cases hz : b.isZero = true
    · simp [hz, badRequest] at h
    · simp [hz, ha, hb, ok, Response.field, Response.hasField, JsVal.field, List.lookup,
        CalcOp.operationName, CalcOp.operands]
  all_goals
    obtain ⟨a, ha⟩ := hnum "a" (by simp [CalcOp.operands])
    obtain ⟨b, hb⟩ := hnum "b" (by simp [CalcOp.operands])
    simp [CalcOp.run, addHandler, subtractHandler, multiplyHandler, powerHandler, ha, hb, ok,
      Response.field, Response.hasField, JsVal.field, List.lookup, CalcOp.operationName,
      CalcOp.operands]

/-- C13 at a concrete request: `sqrt` of 9. -/
theorem calc_success_echoes_witness :
    (CalcOp.sqrt.run (fun _ _ => JsNum.nan) [("number", JsVal.num (JsNum.ofNat 9))]).status =
      200 ∧
    (CalcOp.sqrt.run (fun _ _ => JsNum.nan) [("number", JsVal.num (JsNum.ofNat 9))]).field
      "operation" = JsVal.str "square root" ∧
    (CalcOp.sqrt.run (fun _ _ => JsNum.nan) [("number", JsVal.num (JsNum.ofNat 9))]).field
      "number" = JsVal.num (JsNum.ofNat 9) :=
  have h := calc_success_echoes (fun _ _ => JsNum.nan) CalcOp.sqrt
    [("number", JsVal.num (JsNum.ofNat 9))] rfl
  ⟨rfl, h.1, h.2.1 "number" (by decide)⟩

/-! ## `power` -/

/-- C14: with both operands Numbers, `power` answers 200 with `result` equal to
`Math.pow(a, b)`, whatever the operands are (there is no domain check); with
`Math.pow` fixed as far as the platform fixes it, `power(2, 3)` gives 8 and
`power(2, 0)` gives 1. -/
theorem power_result (pow approx : JsNum → JsNum → JsNum) (body : Body) (a b : JsNum)
    (ha : body.get "a" = JsVal.num a) (hb : body.get "b" = JsVal.num b) :
    ((powerHandler pow body).status = 200 ∧
      (powerHandler pow body).hasField "error" = false ∧
      (powerHandler pow body).field "result" = JsVal.num (pow a b)) ∧
    (powerHandler (JsNum.pow approx) [("a", JsVal.num (JsNum.ofNat 2)),
      ("b", JsVal.num (JsNum.ofNat 3))]).field "result" = JsVal.num (JsNum.ofNat 8) ∧
    (powerHandler (JsNum.pow approx) [("a", JsVal.num (JsNum.ofNat 2)),
      ("b", JsVal.num (JsNum.ofNat 0))]).field "result" = JsVal.num (JsNum.ofNat 1) := by
  refine ⟨?_, rfl, rfl⟩
  unfold powerHandler
  rw [ha, hb]
  simp [ok, Response.field, Response.hasField, JsVal.field, List.lookup]

/-- C14 at a concrete request: a negative base with a fractional exponent is
answered with status 200 and whatever `Math.pow` gives. -/
theorem power_result_witness :
    Body.get [("a", JsVal.num (JsNum.ofDecimal true 8 0)),
      ("b", JsVal.num (JsNum.ofDecimal false 5 (-1)))] "b" =
        JsVal.num (JsNum.ofDecimal false 5 (-1)) ∧
    (powerHandler (JsNum.pow (fun _ _ => JsNum.nan))
      [("a", JsVal.num (JsNum.ofDecimal true 8 0)),
        ("b", JsVal.num (JsNum.ofDecimal false 5 (-1)))]).status = 200 ∧
    (powerHandler (JsNum.pow (fun _ _ => JsNum.nan))
      [("a", JsVal.num (JsNum.ofDecimal true 8 0)),
        ("b", JsVal.num (JsNum.ofDecimal false 5 (-1)))]).field "result" =
      JsVal.num JsNum.nan :=
  have h := power_result (JsNum.pow (fun _ _ => JsNum.nan)) (fun _ _ => JsNum.nan)
    [("a", JsVal.num (JsNum.ofDecimal true 8 0)),
      ("b", JsVal.num (JsNum.ofDecimal false 5 (-1)))]
    (JsNum.ofDecimal true 8 0) (JsNum.ofDecimal false 5 (-1)) rfl rfl
  ⟨rfl, h.1.1, h.1.2.2.trans (congrArg JsVal.num (by decide))⟩

/-! ## `convert` on any text -/

/-- C15: for every non-empty datetime text, readable or not, and every two
zones of the database, `convert` responds with status 200 and an envelope with
an `original` and a `converted` view and no `error` field; when the library
cannot read the text, the `datetime` and `formatted` of both views are the
library's renderings of its invalid date. -/
theorem convert_accepts_any_text (L : MomentLib) (body : Body) (dt f t : String)
    (hdt : dt ≠ "") (hf : L.hasZone f = true) (ht : L.hasZone t = true)
    (h1 : body.get "datetime" = JsVal.str dt)
    (h2 : body.get "fromTimezone" = JsVal.str f)
    (h3 : body.get "toTimezone" = JsVal.str t) :
    ∃ r, convertHandler L body = some r ∧ r.status = 200 ∧
      r.hasField "error" = false ∧
      r.hasField "original" = true ∧ r.hasField "converted" = true ∧
      (L.parse (JsVal.str dt) f = none →
        (r.field "original").field "datetime" = JsVal.str (L.format ⟨none, f⟩ none) ∧
        (r.field "converted").field "datetime" = JsVal.str (L.format ⟨none, t⟩ none) ∧
        (r.field "original").field "formatted" =
          JsVal.str (L.format ⟨none, f⟩ (some "MMMM D, YYYY h:mm:ss A z")) ∧
        (r.field "converted").field "formatted" =
          JsVal.str (L.format ⟨none, t⟩ (some "MMMM D, YYYY h:mm:ss A z"))) := by
  refine ⟨_, convertHandler_ok L body dt f t hdt hf ht h1 h2 h3, rfl, rfl, rfl, rfl, ?_⟩
  intro hp
  simp [ok, Response.field, JsVal.field, List.lookup, MomentLib.tz, Moment.tz, hp]

/-- C15 at a concrete request: the text "not a date" from `UTC` to
`Asia/Tokyo` with the two-zone database is answered with status 200 and
"Invalid date" in both views. -/
theorem convert_accepts_any_text_witness :
    sampleLib.hasZone "UTC" = true ∧ sampleLib.hasZone "Asia/Tokyo" = true ∧
    sampleLib.parse (JsVal.str "not a date") "UTC" = none ∧
    ∃ r, convertHandler sampleLib [("datetime", JsVal.str "not a date"),
        ("fromTimezone", JsVal.str "UTC"), ("toTimezone", JsVal.str "Asia/Tokyo")] = some r ∧
      r.status = 200 ∧
      (r.field "original").field "datetime" = JsVal.str "Invalid date" ∧
      (r.field "converted").field "datetime" = JsVal.str "Invalid date" :=
  ⟨rfl, rfl, rfl,
    (convert_accepts_any_text sampleLib [("datetime", JsVal.str "not a date"),
        ("fromTimezone", JsVal.str "UTC"), ("toTimezone", JsVal.str "Asia/Tokyo")]
      "not a date" "UTC" "Asia/Tokyo" (by decide) rfl rfl rfl rfl rfl).elim
      fun r hr => ⟨r, hr.1, hr.2.1, (hr.2.2.2.2.2 rfl).1, (hr.2.2.2.2.2 rfl).2.1⟩⟩

/-! ## The zone list -/

/-- The fraction `scaled` holds at a natural scale. -/
theorem JsNum.scaled_natCast (p q k : Nat) :
    JsNum.scaled p q (k : Int) = (p * 2 ^ k, q) := rfl

/-- A natural number below `2 ^ 53` is a Number: `ofNat` normalises it without
rounding. -/
theorem JsNum.ofNat_eq (n : Nat) (hn : 0 < n) (h : n < 2 ^ 53) :
    JsNum.ofNat n =
      JsNum.fin false (n * 2 ^ (52 - JsNum.log2 n)) (-((52 - JsNum.log2 n : Nat) : Int)) := by
  obtain ⟨h1, h2⟩ := JsNum.log2_spec n hn
  have hl : JsNum.log2 n ≤ 52 := by
    by_contra hc
    have : 2 ^ 53 ≤ 2 ^ JsNum.log2 n := Nat.pow_le_pow_right (by norm_num) (by omega)
    omega
  have hlog1 : JsNum.log2 1 = 0 := by decide
  have hn0 : ¬ n = 0 := by omega
  simp only [JsNum.ofNat, JsNum.round, hn0, if_false, hlog1]
  generalize JsNum.log2 n = l at h1 h2 hl ⊢
  have hs0 : (53 : Int) - ((l : Int) - ((0 : Nat) : Int)) = (((52 - l) + 1 : Nat) : Int) := by
    omega
  have hm0 : 2 ^ 53 ≤ n * 2 ^ (52 - l + 1) := by
    calc 2 ^ 53 = 2 ^ l * 2 ^ (52 - l + 1) := by rw [← pow_add]; congr 1; omega
      _ ≤ n * 2 ^ (52 - l + 1) := Nat.mul_le_mul_right _ h1
  have hm : n * 2 ^ (52 - l) < 2 ^ 53 := by
    calc n * 2 ^ (52 - l) < 2 ^ (l + 1) * 2 ^ (52 - l) :=
          Nat.mul_lt_mul_of_pos_right h2 (by positivity)
      _ = 2 ^ 53 := by rw [← pow_add]; congr 1; omega
  have hs1 : ((((52 - l) + 1 : Nat) : Int)) - 1 = ((52 - l : Nat) : Int) := by omega
  have hmin : min ((52 - l : Nat) : Int) (0 + 1074) = ((52 - l : Nat) : Int) := by
    apply min_eq_left; omega
  simp only [hs0, JsNum.scaled_natCast,
    Nat.div_one, hm0, if_true, hs1, hmin, Nat.mod_one, Nat.mul_zero]
  have hne : ¬ n * 2 ^ (52 - l) = 2 ^ 53 := by omega
  have hcond : ¬ (1 < 0 ∨ 0 = 1 ∧ n * 2 ^ (52 - l) % 2 = 1) := by omega
  simp only [hcond, if_false, hne, zero_sub]
  have h971 : ¬ (971 : Int) < -((52 - l : Nat) : Int) := by omega
  simp only [h971, if_false]

/-- A natural number below `2 ^ 53` is denoted exactly by its Number. -/
theorem JsNum.ofNat_toRat (n : Nat) (h : n < 2 ^ 53) : (JsNum.ofNat n).toRat = (n : ℚ) := by
  by_cases hn : n = 0
  · subst hn
    simp [JsNum.ofNat, JsNum.round, JsNum.toRat]
  · rw [JsNum.ofNat_eq n (Nat.pos_of_ne_zero hn) h]
    simp only [JsNum.toRat, Bool.false_eq_true, if_false, one_mul, zpow_neg, zpow_natCast]
    push_cast
    field_simp

/-- An assignment keeps the keys of an object pairwise different. -/
theorem assign_keys_nodup (obj : List (String × String)) (key value : String)
    (h : (obj.map Prod.fst).Nodup) : ((assign obj key value).map Prod.fst).Nodup := by
  unfold assign
  split
  · have hmap : (obj.map fun p => if (p.1 == key) = true then (key, value) else p).map Prod.fst =
        obj.map Prod.fst := by
      rw [List.map_map]
      apply List.map_congr_left
      intro p _
      by_cases hp : (p.1 == key) = true
      · simp only [Function.comp, hp, if_true]
        exact (eq_of_beq hp).symm
      · simp [Function.comp, hp]
    rw [hmap]
    exact h
  · rename_i hany
    rw [List.map_append]
    apply List.Nodup.append h (by simp)
    intro k hk1 hk2
    simp only [List.map_cons, List.map_nil, List.mem_singleton] at hk2
    subst hk2
    apply hany
    obtain ⟨p, hp, hpk⟩ := List.mem_map.mp hk1
    exact List.any_eq_true.mpr ⟨p, hp, by simp [hpk]⟩

/-- An assignment of a name under its normalised key keeps every key the
normalisation of its value. -/
theorem assign_key_of_value (n : String → String) (obj : List (String × String))
    (key value : String) (h : ∀ p ∈ obj, p.1 = n p.2) (hkv : key = n value) :
    ∀ p ∈ assign obj key value, p.1 = n p.2 := by
  unfold assign
  split
  · intro p hp
    obtain ⟨q, hq, hqp⟩ := List.mem_map.mp hp
    by_cases hc : (q.1 == key) = true
    · simp only [hc, if_true] at hqp
      subst hqp
      exact hkv
    · simp only [hc, if_false] at hqp
      subst hqp
      exact h q hq
  · intro p hp
    rcases List.mem_append.mp hp with hp | hp
    · exact h p hp
    · simp only [List.mem_singleton] at hp
      subst hp
      exact hkv

/-- A property of the empty object that every step keeps holds after a loop
of steps. -/
theorem foldl_keeps {α β : Type} (P : β → Prop) (step : β → α → β)
    (hstep : ∀ b a, P b → P (step b a)) (l : List α) (b : β) (hb : P b) :
    P (l.foldl step b) := by
  induction l generalizing b with
  | nil => exact hb
  | cons a l ih => exact ih (step b a) (hstep b a hb)

/-- In the `names` table the keys are pairwise different and each key is the
normalised form of the name stored under it. -/
theorem nameTable_keys (lower : String → String) (zoneNames : List String)
    (linkPairs : List (String × String)) :
    ((nameTable lower zoneNames linkPairs).map Prod.fst).Nodup ∧
    ∀ p ∈ nameTable lower zoneNames linkPairs, p.1 = normalizeName lower p.2 := by
  unfold nameTable
  apply foldl_keeps (fun obj : List (String × String) =>
    (obj.map Prod.fst).Nodup ∧ ∀ p ∈ obj, p.1 = normalizeName lower p.2)
  · intro obj p hobj
    exact ⟨assign_keys_nodup _ _ _ (assign_keys_nodup _ _ _ hobj.1),
      assign_key_of_value _ _ _ _ (assign_key_of_value _ _ _ _ hobj.2 rfl) rfl⟩
  · apply foldl_keeps (fun obj : List (String × String) =>
      (obj.map Prod.fst).Nodup ∧ ∀ p ∈ obj, p.1 = normalizeName lower p.2)
    · intro obj z hobj
      exact ⟨assign_keys_nodup _ _ _ hobj.1, assign_key_of_value _ _ _ _ hobj.2 rfl⟩
    · exact ⟨List.nodup_nil, fun p hp => absurd hp (List.not_mem_nil p)⟩

/-- Insertion into a sorted list adds the one element. -/
theorem insertSorted_perm (x : String) (l : List String) :
    (insertSorted x l).Perm (x :: l) := by
  induction l with
  | nil => exact List.Perm.refl _
  | cons y ys ih =>
    unfold insertSorted
    split
    · exact List.Perm.refl _
    · exact (List.Perm.cons y ih).trans (List.Perm.swap x y ys)

/-- Sorting rearranges the list and nothing else. -/
theorem jsSort_perm (l : List String) : (jsSort l).Perm l := by
  induction l with
  | nil => exact List.Perm.refl _
  | cons x xs ih =>
    unfold jsSort
    exact (insertSorted_perm x (jsSort xs)).trans (List.Perm.cons x ih)

/-- The name list of the library has no duplicates, whatever data was loaded:
two entries of the `names` table with one name would have one key. -/
theorem getNames_nodup (lower : String → String) (zoneNames : List String)
    (linkPairs : List (String × String)) : (getNames lower zoneNames linkPairs).Nodup := by
  obtain ⟨hk, hv⟩ := nameTable_keys lower zoneNames linkPairs
  unfold getNames
  apply (jsSort_perm _).nodup_iff.mpr
  apply List.Nodup.map_on
  · intro p hp q hq hpq
    have hp2 := hv p (List.mem_filter.mp hp).1
    have hq2 := hv q (List.mem_filter.mp hq).1
    exact Prod.ext (by rw [hp2, hq2, hpq]) hpq
  · exact (List.Nodup.of_map _ hk).filter _

/-- C16: `timezones` always answers 200; its `timezones` field is the name list
of the zone database as the library gives it, neither filtered nor reordered;
its `count` field is the Number of the length of that list (exactly the
length, below `2 ^ 53`); and the list has no duplicates, because the library
keeps its names in a table with one entry for each normalised name. -/
theorem timezones_list (L : MomentLib) :
    (timezonesHandler L).status = 200 ∧
    (timezonesHandler L).hasField "error" = false ∧
    (timezonesHandler L).field "timezones" = JsVal.arr (L.names.map JsVal.str) ∧
    (L.names.map JsVal.str).length = L.names.length ∧
    (timezonesHandler L).field "count" = JsVal.num (JsNum.ofNat (L.names.map JsVal.str).length) ∧
    (L.names.length < 2 ^ 53 →
      (JsNum.ofNat (L.names.map JsVal.str).length).toRat = (L.names.length : ℚ)) ∧
    L.names.Nodup ∧
    (L.names.map JsVal.str).Nodup := by
  have hn : L.names.Nodup := getNames_nodup L.lower L.zoneNames L.linkPairs
  refine ⟨rfl, rfl, rfl, List.length_map _ _, ?_, ?_, hn, ?_⟩
  · rw [List.length_map]
    rfl
  · intro h
    rw [List.length_map]
    exact JsNum.ofNat_toRat _ h
  · exact hn.map (fun a b hab => by injection hab)

/-- C16 at a concrete database: the two zones and the alias of the stand-in. -/
theorem timezones_list_witness :
    sampleLib.names = ["Asia/Tokyo", "Etc/UTC", "UTC"] ∧
    (timezonesHandler sampleLib).field "timezones" =
      JsVal.arr [JsVal.str "Asia/Tokyo", JsVal.str "Etc/UTC", JsVal.str "UTC"] ∧
    (timezonesHandler sampleLib).field "count" = JsVal.num (JsNum.ofNat 3) ∧
    (JsNum.ofNat (List.map JsVal.str sampleLib.names).length).toRat =
      (sampleLib.names.length : ℚ) ∧
    (List.map JsVal.str sampleLib.names).Nodup :=
  have h := timezones_list sampleLib
  ⟨by decide, h.2.2.1, h.2.2.2.2.1, h.2.2.2.2.2.1 (by decide), h.2.2.2.2.2.2.2⟩

/-! ## Converting there and back -/

/-- C17: let `dt` be a wall-clock text that the library reads as the reading
`w`, and let `a`, `b` be zones of the database with no transition involved:
`a` has the one offset `oa` at the reading `w` and at the instant it denotes,
and `b` has the one offset `ob` at that instant and at the reading it shows
there.  Converting `dt` from `a` to `b` shows the reading `w - oa + ob` in `b`;
converting a text of that `b`-local reading (bare, or with the offset of `b`)
from `b` back to `a` succeeds, and its `converted` view shows the reading `w`
in `a`: the wall-clock value of `dt`. -/
theorem convert_round_trip (C : ClockLib) (body1 body2 : Body) (dt dt2 a b : String)
    (w oa ob : Int) (o2 : Option Int)
    (hdt : dt ≠ "") (ha : C.lib.hasZone a = true) (hb : C.lib.hasZone b = true)
    (h1 : body1.get "datetime" = JsVal.str dt)
    (h2 : body1.get "fromTimezone" = JsVal.str a)
    (h3 : body1.get "toTimezone" = JsVal.str b)
    (hread : C.readText (JsVal.str dt) = some (w, none))
    (hoa : C.localOffset a w = oa) (hia : C.utcOffset a (w - oa) = oa)
    (hob : C.utcOffset b (w - oa) = ob) (hlb : C.localOffset b (w - oa + ob) = ob)
    (hdt2 : dt2 ≠ "")
    (hread2 : C.readText (JsVal.str dt2) = some (w - oa + ob, o2))
    (ho2 : o2 = none ∨ o2 = some ob)
    (h4 : body2.get "datetime" = JsVal.str dt2)
    (h5 : body2.get "fromTimezone" = JsVal.str b)
    (h6 : body2.get "toTimezone" = JsVal.str a) :
    ∃ r1 r2, convertHandler C.lib body1 = some r1 ∧ convertHandler C.lib body2 = some r2 ∧
      r1.status = 200 ∧ r2.status = 200 ∧
      C.wallClock ((C.lib.tz (JsVal.str dt) a).tz b) = some (w - oa + ob) ∧
      (r1.field "converted").field "datetime" =
        JsVal.str (C.showText (w - oa + ob) ob b none) ∧
      C.wallClock ((C.lib.tz (JsVal.str dt2) b).tz a) = some w ∧
      (r2.field "converted").field "timezone" = JsVal.str a ∧
      (r2.field "converted").field "datetime" = JsVal.str (C.showText w oa a none) ∧
      (r2.field "converted").field "formatted" =
        JsVal.str (C.showText w oa a (some "MMMM D, YYYY h:mm:ss A z")) ∧
      (r2.field "converted").field "datetime" = (r1.field "original").field "datetime" := by
  have hp1 : C.lib.parse (JsVal.str dt) a = some (w - oa) := by
    simp only [ClockLib.lib, hread, hoa]
  have hp2 : C.lib.parse (JsVal.str dt2) b = some (w - oa) := by
    have hsub : w - oa + ob - ob = w - oa := by ring
    rcases ho2 with ho | ho
    · subst ho
      simp only [ClockLib.lib, hread2, hlb, hsub]
    · subst ho
      simp only [ClockLib.lib, hread2, hsub]
  have hadd : w - oa + oa = w := by ring
  refine ⟨_, _, convertHandler_ok C.lib body1 dt a b hdt ha hb h1 h2 h3,
    convertHandler_ok C.lib body2 dt2 b a hdt2 hb ha h4 h5 h6, rfl, rfl, ?_, ?_, ?_, ?_, ?_, ?_, ?_⟩
  · simp [ClockLib.wallClock, MomentLib.tz, Moment.tz, hp1, hob]
  · simp only [ok, Response.field, JsVal.field, List.lookup, MomentLib.tz, Moment.tz, hp1]
    simp [ClockLib.lib, hob, List.lookup]
  · simp [ClockLib.wallClock, MomentLib.tz, Moment.tz, hp2, hia, hadd]
  · simp [ok, Response.field, JsVal.field, List.lookup]
  · simp only [ok, Response.field, JsVal.field, List.lookup, MomentLib.tz, Moment.tz, hp2]
    simp [ClockLib.lib, hia, hadd, List.lookup]
  · simp only [ok, Response.field, JsVal.field, List.lookup, MomentLib.tz, Moment.tz, hp2]
    simp [ClockLib.lib, hia, hadd, List.lookup]
  · simp only [ok, Response.field, JsVal.field, List.lookup, MomentLib.tz, Moment.tz, hp1, hp2]
    simp [List.lookup]

/-- C17 at a concrete request: 10:00 on 5 January 2026 from `UTC` to
`Asia/Tokyo` is 19:00 there, and the text the first answer gives for it,
19:00 `+09:00`, from `Asia/Tokyo` to `UTC` is 10:00 again. -/
theorem convert_round_trip_witness :
    sampleClock.lib.hasZone "UTC" = true ∧ sampleClock.lib.hasZone "Asia/Tokyo" = true ∧
    sampleClock.readText (JsVal.str "2026-01-05 10:00:00") = some (1767607200000, none) ∧
    ∃ r1 r2,
      convertHandler sampleClock.lib [("datetime", JsVal.str "2026-01-05 10:00:00"),
        ("fromTimezone", JsVal.str "UTC"), ("toTimezone", JsVal.str "Asia/Tokyo")] = some r1 ∧
      convertHandler sampleClock.lib [("datetime", JsVal.str "2026-01-05T19:00:00+09:00"),
        ("fromTimezone", JsVal.str "Asia/Tokyo"), ("toTimezone", JsVal.str "UTC")] = some r2 ∧
      (r1.field "converted").field "datetime" = JsVal.str "2026-01-05T19:00:00+09:00" ∧
      (r2.field "converted").field "datetime" = JsVal.str "2026-01-05T10:00:00Z" ∧
      sampleClock.wallClock ((sampleClock.lib.tz (JsVal.str "2026-01-05T19:00:00+09:00")
        "Asia/Tokyo").tz "UTC") = some 1767607200000 :=
  ⟨rfl, rfl, rfl,
    (convert_round_trip sampleClock
      [("datetime", JsVal.str "2026-01-05 10:00:00"),
        ("fromTimezone", JsVal.str "UTC"), ("toTimezone", JsVal.str "Asia/Tokyo")]
      [("datetime", JsVal.str "2026-01-05T19:00:00+09:00"),
        ("fromTimezone", JsVal.str "Asia/Tokyo"), ("toTimezone", JsVal.str "UTC")]
      "2026-01-05 10:00:00" "2026-01-05T19:00:00+09:00" "UTC" "Asia/Tokyo"
      1767607200000 0 32400000 (some 32400000)
      (by decide) rfl rfl rfl rfl rfl rfl rfl rfl rfl rfl (by decide) rfl (Or.inr rfl)
      rfl rfl rfl).elim fun r1 h => h.elim fun r2 h =>
        ⟨r1, r2, h.1, h.2.1, h.2.2.2.2.2.1.trans rfl, h.2.2.2.2.2.2.2.2.1.trans rfl,
          h.2.2.2.2.2.2.1⟩⟩

/-! ## The calculator routes -/

/-- C18, as stated, fails: the source registers seven `/api/calculate/*`
routes, not eight. -/
theorem calculate_routes_not_eight :
    calculateRoutes.length = 7 ∧ calculateRoutes.length ≠ 8 ∧
    calculateRoutes.map Prod.fst =
      ["/api/calculate/add", "/api/calculate/subtract", "/api/calculate/multiply",
       "/api/calculate/divide", "/api/calculate/power", "/api/calculate/sqrt",
       "/api/calculate/percentage"] := by
  decide

/-- C18, amended: the calculator exposes exactly seven operations: the
registered `/api/calculate/*` routes are seven, pairwise different, every
calculator handler is registered under exactly one of them, and each handler
takes one or two operands. -/
theorem calculate_routes_seven :
    calculateRoutes.length = 7 ∧
    (calculateRoutes.map Prod.fst).Nodup ∧
    (calculateRoutes.map Prod.snd).Nodup ∧
    (∀ op : CalcOp, op ∈ calculateRoutes.map Prod.snd) ∧
    (∀ op : CalcOp, op.operands.length = 1 ∨ op.operands.length = 2) := by
  refine ⟨by decide, by decide, by decide, ?_, ?_⟩
  · intro op
    cases op <;> decide
  · intro op
    cases op <;> decide

/-! ## Order of the checks -/

/-- C19: in `divide`, `sqrt` and `percentage` the operand type check comes
first: a body with an operand that is not a Number gets the type-error message
of the handler and never the message of the domain check, also when the other
operand is a zero divisor or total; the envelope holds that one message and
nothing else. -/
theorem type_check_before_domain_check (body : Body) :
    (((body.get "a").isNumber = false ∨ (body.get "b").isNumber = false) →
      divideHandler body = badRequest "Both a and b must be numbers" ∧
      (divideHandler body).field "error" ≠ JsVal.str "Cannot divide by zero") ∧
    (((body.get "value").isNumber = false ∨ (body.get "total").isNumber = false) →
      percentageHandler body = badRequest "Both value and total must be numbers" ∧
      (percentageHandler body).field "error" ≠ JsVal.str "Total cannot be zero") ∧
    ((body.get "number").isNumber = false →
      sqrtHandler body = badRequest "Number must be provided" ∧
      (sqrtHandler body).field "error" ≠
        JsVal.str "Cannot calculate square root of negative number") ∧
    (∀ msg : String, (badRequest msg).body = JsVal.obj [("error", JsVal.str msg)]) ∧
    divideHandler [("a", JsVal.str "ten"), ("b", JsVal.num (JsNum.ofNat 0))] =
      badRequest "Both a and b must be numbers" ∧
    percentageHandler [("value", JsVal.null), ("total", JsVal.num (JsNum.ofNat 0))] =
      badRequest "Both value and total must be numbers" := by
  refine ⟨?_, ?_, ?_, fun _ => rfl, rfl, rfl⟩
  · intro h
    have hrun : divideHandler body = badRequest "Both a and b must be numbers" := by
      rcases h with h | h
      · exact CalcOp.run_of_not_number (fun _ _ => JsNum.nan) CalcOp.divide body
          ⟨"a", by simp [CalcOp.operands], h⟩
      · exact CalcOp.run_of_not_number (fun _ _ => JsNum.nan) CalcOp.divide body
          ⟨"b", by simp [CalcOp.operands], h⟩
    rw [hrun]
    refine ⟨rfl, ?_⟩
    simp [badRequest, Response.field, JsVal.field, List.lookup]
  · intro h
    have hrun : percentageHandler body = badRequest "Both value and total must be numbers" := by
      rcases h with h | h
      · exact CalcOp.run_of_not_number (fun _ _ => JsNum.nan) CalcOp.percentage body
          ⟨"value", by simp [CalcOp.operands], h⟩
      · exact CalcOp.run_of_not_number (fun _ _ => JsNum.nan) CalcOp.percentage body
          ⟨"total", by simp [CalcOp.operands], h⟩
    rw [hrun]
    refine ⟨rfl, ?_⟩
    simp [badRequest, Response.field, JsVal.field, List.lookup]
  · intro h
    have hrun : sqrtHandler body = badRequest "Number must be provided" :=
      CalcOp.run_of_not_number (fun _ _ => JsNum.nan) CalcOp.sqrt body
        ⟨"number", by simp [CalcOp.operands], h⟩
    rw [hrun]
    refine ⟨rfl, ?_⟩
    simp [badRequest, Response.field, JsVal.field, List.lookup]

/-- C19 at a concrete request: `divide` with `a` absent and `b` equal to `-0`. -/
theorem type_check_before_domain_check_witness :
    (Body.get [("b", JsVal.num (JsNum.ofDecimal true 0 0))] "a").isNumber = false ∧
    (JsNum.ofDecimal true 0 0).isZero = true ∧
    divideHandler [("b", JsVal.num (JsNum.ofDecimal true 0 0))] =
      badRequest "Both a and b must be numbers" :=
  ⟨rfl, rfl, ((type_check_before_domain_check
    [("b", JsVal.num (JsNum.ofDecimal true 0 0))]).1 (Or.inl rfl)).1⟩

/-- A success envelope is not an error envelope. -/
theorem ok_ne_badRequest (members : List (String × JsVal)) (msg : String) :
    ok members ≠ badRequest msg := by
  intro h
  have h2 := congrArg Response.status h
  simp [ok, badRequest] at h2

/-- C20: the missing-field test of `convert` is a truthiness test.  A field
that is present but is the empty string, a zero, `false` or `null` gets the
answer 400 'Missing required fields' that an absent field gets, and the
handler goes past that answer, on to the zone check, exactly when all three
fields are truthy. -/
theorem convert_missing_is_falsy (L : MomentLib) (body : Body) :
    (∀ k ∈ ["datetime", "fromTimezone", "toTimezone"],
      (body.get k = JsVal.str "" ∨ (∃ n : JsNum, body.get k = JsVal.num n ∧ n.isZero = true) ∨
        body.get k = JsVal.bool false ∨ body.get k = JsVal.null ∨
        body.get k = JsVal.undefined) →
      convertHandler L body = some (badRequest "Missing required fields")) ∧
    (convertHandler L body ≠ some (badRequest "Missing required fields") ↔
      ((body.get "datetime").truthy = true ∧ (body.get "fromTimezone").truthy = true ∧
        (body.get "toTimezone").truthy = true)) := by
  have hiff : convertHandler L body ≠ some (badRequest "Missing required fields") ↔
      ((body.get "datetime").truthy = true ∧ (body.get "fromTimezone").truthy = true ∧
        (body.get "toTimezone").truthy = true) := by
    constructor
    · intro h
      by_contra hc
      apply h
      unfold convertHandler
      have : (!(body.get "datetime").truthy || !(body.get "fromTimezone").truthy ||
          !(body.get "toTimezone").truthy) = true := by
        cases h1 : (body.get "datetime").truthy <;>
          cases h2 : (body.get "fromTimezone").truthy <;>
          cases h3 : (body.get "toTimezone").truthy <;> simp_all
      simp [this]
    · rintro ⟨h1, h2, h3⟩
      rcases convertHandler_past_guard L body h1 h2 h3 with h | h | ⟨m, h, _⟩
      · rw [h]
        intro hc
        cases hc
      · rw [h]
        intro hc
        exact missing_ne_invalid (Option.some.inj hc).symm
      · rw [h]
        intro hc
        exact ok_ne_badRequest _ _ (Option.some.inj hc)
  refine ⟨?_, hiff⟩
  intro k hk hv
  have hfalsy : (body.get k).truthy = false := by
    rcases hv with h | ⟨n, h, hz⟩ | h | h | h
    · rw [h]; simp [JsVal.truthy]
    · rw [h]; simp [JsVal.truthy, hz]
    · rw [h]; simp [JsVal.truthy]
    · rw [h]; simp [JsVal.truthy]
    · rw [h]; simp [JsVal.truthy]
  by_contra hc
  have hall := hiff.mp hc
  simp only [List.mem_cons, List.mem_singleton, List.not_mem_nil, or_false] at hk
  rcases hk with hk | hk | hk <;> subst hk
  · rw [hall.1] at hfalsy; exact absurd hfalsy (by decide)
  · rw [hall.2.1] at hfalsy; exact absurd hfalsy (by decide)
  · rw [hall.2.2] at hfalsy; exact absurd hfalsy (by decide)

/-- C20 at concrete requests: a `datetime` of `0` is reported as missing, and a
body with three non-empty strings goes on to the zone check. -/
theorem convert_missing_is_falsy_witness :
    convertHandler sampleLib [("datetime", JsVal.num (JsNum.ofNat 0)),
      ("fromTimezone", JsVal.str "UTC"), ("toTimezone", JsVal.str "UTC")] =
        some (badRequest "Missing required fields") ∧
    convertHandler sampleLib [("datetime", JsVal.str "2026-01-05 10:00:00"),
      ("fromTimezone", JsVal.str "Mars/Phobos"), ("toTimezone", JsVal.str "UTC")] ≠
        some (badRequest "Missing required fields") :=
  ⟨(convert_missing_is_falsy sampleLib [("datetime", JsVal.num (JsNum.ofNat 0)),
      ("fromTimezone", JsVal.str "UTC"), ("toTimezone", JsVal.str "UTC")]).1 "datetime"
      (by decide) (Or.inr (Or.inl ⟨JsNum.ofNat 0, rfl, rfl⟩)),
   (convert_missing_is_falsy sampleLib [("datetime", JsVal.str "2026-01-05 10:00:00"),
      ("fromTimezone", JsVal.str "Mars/Phobos"), ("toTimezone", JsVal.str "UTC")]).2.mpr
      ⟨rfl, rfl, rfl⟩⟩

end ApiTest
